import Mathlib

/-!
Verification development for the serverless energy-ETL pipeline.

The repository's handlers are Python Azure Functions.  This file gives a
shallow embedding of their pure data-transformation cores:

* `pyReplace`, `pyEndsWith`, `pyContains` model the Python `str` operations
  used by the handlers (strings are modelled as `List Char`);
* `sanitize_iso_timestamp` models `TriggerPrediction.sanitize_iso_timestamp`;
* a JSON value model and parser mirror `json.loads`;
* the snapshot normalizer, forecast request builder, forecast response
  reconciler, recommendation generator and the upsert statements are each
  embedded as executable functions.

Machine floats are modelled as rationals; timestamps as seconds since the
Unix epoch.
-/

set_option allowUnsafeReducibility true
attribute [local semireducible] Rat.add Rat.mul Rat.sub Rat.inv Rat.ofScientific

/-- Fuelled worker for `pyReplace`; `fuel` only bounds the recursion depth and
is irrelevant once it is at least the length of the subject string
(`pyReplaceF_fuel`). -/
def pyReplaceF : ℕ → List Char → List Char → List Char → List Char
  | fuel, s, pat, rep =>
    match pat with
    | [] => rep ++ s.foldr (fun c acc => c :: rep ++ acc) []
    | p :: ps =>
      match s with
      | [] => []
      | c :: rest =>
        match fuel with
        | 0 => []
        | fuel + 1 =>
          if (p :: ps).isPrefixOf (c :: rest) then
            rep ++ pyReplaceF fuel (rest.drop ps.length) (p :: ps) rep
          else
            c :: pyReplaceF fuel rest (p :: ps) rep

/-- Python `str.replace pat rep`: replaces every non-overlapping occurrence of
`pat` by `rep`, scanning left to right.  As in CPython, an empty pattern
inserts `rep` before every character and once at the end. -/
def pyReplace (s pat rep : List Char) : List Char := pyReplaceF s.length s pat rep

theorem pyReplaceF_succ (f : ℕ) (c : Char) (rest : List Char) (p : Char)
    (ps rep : List Char) :
    pyReplaceF (f + 1) (c :: rest) (p :: ps) rep =
      if (p :: ps).isPrefixOf (c :: rest) then
        rep ++ pyReplaceF f (rest.drop ps.length) (p :: ps) rep
      else
        c :: pyReplaceF f rest (p :: ps) rep := rfl

theorem pyReplaceF_pat_nil (f : ℕ) (s rep : List Char) :
    pyReplaceF f s [] rep = rep ++ s.foldr (fun c acc => c :: rep ++ acc) [] := by
  rw [pyReplaceF.eq_def]

theorem pyReplaceF_s_nil (f : ℕ) (p : Char) (ps rep : List Char) :
    pyReplaceF f [] (p :: ps) rep = [] := by
  rw [pyReplaceF.eq_def]

theorem pyReplaceF_fuel : ∀ (f : ℕ) (s pat rep : List Char), s.length ≤ f →
    pyReplaceF f s pat rep = pyReplaceF s.length s pat rep := by
  intro f
  induction f using Nat.strong_induction_on with
  | _ f ih =>
    intro s pat rep h
    cases pat with
    | nil => rw [pyReplaceF_pat_nil, pyReplaceF_pat_nil]
    | cons p ps =>
      cases s with
      | nil => rw [pyReplaceF_s_nil, pyReplaceF_s_nil]
      | cons c rest =>
        cases f with
        | zero => simp at h
        | succ f' =>
          rw [pyReplaceF_succ]
          rw [show (c :: rest).length = rest.length + 1 from rfl, pyReplaceF_succ]
          have hlen : rest.length ≤ f' := by
            simp only [List.length_cons] at h
            omega
          by_cases hp : (p :: ps).isPrefixOf (c :: rest) = true
          · rw [if_pos hp, if_pos hp]
            congr 1
            rw [ih f' (by omega) _ _ _ (by simp only [List.length_drop]; omega)]
            rw [ih rest.length (by omega) _ _ _ (by simp only [List.length_drop]; omega)]
          · rw [if_neg hp, if_neg hp]
            congr 1
            rw [ih f' (by omega) _ _ _ hlen]

theorem pyReplace_nil (p : Char) (ps rep : List Char) :
    pyReplace [] (p :: ps) rep = [] := rfl

theorem pyReplace_cons (c : Char) (rest : List Char) (p : Char) (ps rep : List Char) :
    pyReplace (c :: rest) (p :: ps) rep =
      if (p :: ps).isPrefixOf (c :: rest) then
        rep ++ pyReplace (rest.drop ps.length) (p :: ps) rep
      else
        c :: pyReplace rest (p :: ps) rep := by
  show pyReplaceF (rest.length + 1) (c :: rest) (p :: ps) rep = _
  rw [pyReplaceF_succ]
  by_cases hp : (p :: ps).isPrefixOf (c :: rest) = true
  · rw [if_pos hp, if_pos hp]
    exact congrArg _ (pyReplaceF_fuel rest.length _ _ _ (by simp only [List.length_drop]; omega))
  · rw [if_neg hp, if_neg hp]
    exact congrArg _ (pyReplaceF_fuel rest.length rest _ _ (le_refl _))

/-- Python `str.endswith`. -/
def pyEndsWith (s tail : List Char) : Bool := tail.isSuffixOf s

/-- Python substring membership `pat in s`: `pat` occurs contiguously in `s`. -/
def pyContains (s pat : List Char) : Bool :=
  pat.isPrefixOf s ||
    match s with
    | [] => false
    | _ :: rest => pyContains rest pat

/-- The literal `'+00:00Z'` from `sanitize_iso_timestamp`. -/
def plusZeroZ : List Char := ['+', '0', '0', ':', '0', '0', 'Z']

/-- The literal `'+00:00'` from `sanitize_iso_timestamp`. -/
def plusZero : List Char := ['+', '0', '0', ':', '0', '0']

/-- Model of `TriggerPrediction.sanitize_iso_timestamp` (lines 36-43): rewrites
trailing `Z` / `+00:00Z` timezone spellings into `fromisoformat`-friendly
forms. -/
def sanitize_iso_timestamp (ts : List Char) : List Char :=
  if pyEndsWith ts plusZeroZ then pyReplace ts plusZeroZ plusZero
  else if pyEndsWith ts ['Z'] && pyContains ts plusZero then pyReplace ts ['Z'] []
  else if pyEndsWith ts ['Z'] then pyReplace ts ['Z'] plusZero
  else ts

/-- String-level wrapper of `sanitize_iso_timestamp`. -/
def sanitizeStr (ts : String) : String := String.mk (sanitize_iso_timestamp ts.data)

theorem pyReplace_ne_nil (s pat rep : List Char) (hs : s ≠ []) (hp : pat ≠ [])
    (hr : rep ≠ []) : pyReplace s pat rep ≠ [] := by
  match s, pat with
  | c :: rest, p :: ps =>
    rw [pyReplace_cons]
    by_cases h : (p :: ps).isPrefixOf (c :: rest) = true
    · rw [if_pos h]
      intro hcon
      exact hr (List.append_eq_nil.mp hcon).1
    · rw [if_neg h]
      simp

theorem mem_pyReplace_singleton (s rep : List Char) (z : Char) (hz : z ∉ rep) :
    z ∉ pyReplace s [z] rep := by
  induction s with
  | nil =>
    show z ∉ ([] : List Char)
    simp
  | cons c rest ih =>
    rw [pyReplace_cons]
    by_cases h : [z].isPrefixOf (c :: rest) = true
    · rw [if_pos h]
      simp only [List.length_nil, List.drop_zero]
      intro hmem
      rcases List.mem_append.mp hmem with h1 | h2
      · exact hz h1
      · exact ih h2
    · have hc : ¬ z = c := by
        intro he
        exact h (by simp [List.isPrefixOf, he])
      rw [if_neg h]
      intro hmem
      rcases List.mem_cons.mp hmem with h1 | h2
      · exact hc h1
      · exact ih h2

theorem isPrefixOf_exists (p : List Char) : ∀ s : List Char,
    p.isPrefixOf s = true ↔ ∃ t, p ++ t = s := by
  induction p with
  | nil => intro s; simp [List.isPrefixOf]
  | cons a p ih =>
    intro s
    cases s with
    | nil => simp [List.isPrefixOf]
    | cons b s' =>
      simp only [List.isPrefixOf, Bool.and_eq_true, beq_iff_eq, ih s']
      constructor
      · rintro ⟨rfl, t, rfl⟩
        exact ⟨t, rfl⟩
      · rintro ⟨t, ht⟩
        simp only [List.cons_append, List.cons.injEq] at ht
        exact ⟨ht.1, t, ht.2⟩

theorem isSuffixOf_exists (p s : List Char) :
    p.isSuffixOf s = true ↔ ∃ u, u ++ p = s := by
  rw [List.isSuffixOf_iff_suffix]
  exact Iff.rfl

theorem pyEndsWith_single (s : List Char) (c : Char) :
    pyEndsWith s [c] = true ↔ s.getLast? = some c := by
  rw [pyEndsWith, isSuffixOf_exists]
  constructor
  · rintro ⟨u, rfl⟩
    exact List.getLast?_concat u
  · intro h
    obtain ⟨ys, rfl⟩ := List.getLast?_eq_some_iff.mp h
    exact ⟨ys, rfl⟩

theorem plusZeroZ_eq : plusZeroZ = plusZero ++ ['Z'] := rfl

theorem pyEndsWith_plusZeroZ_endZ (s : List Char)
    (h : pyEndsWith s plusZeroZ = true) : pyEndsWith s ['Z'] = true := by
  rw [pyEndsWith, isSuffixOf_exists] at h
  obtain ⟨u, rfl⟩ := h
  rw [pyEndsWith_single, plusZeroZ_eq, ← List.append_assoc]
  exact List.getLast?_concat _

theorem replace_plusZeroZ_getLast :
    ∀ (n : ℕ) (s : List Char), s.length ≤ n → (∃ u, u ++ plusZeroZ = s) →
    (pyReplace s plusZeroZ plusZero).getLast? ≠ some 'Z' := by
  intro n
  induction n with
  | zero =>
    rintro s hlen ⟨u, rfl⟩
    simp [plusZeroZ] at hlen
  | succ n ih =>
    rintro s hlen ⟨u, hu⟩
    have hpz : plusZeroZ = '+' :: '0' :: '0' :: ':' :: '0' :: '0' :: 'Z' :: [] := rfl
    cases s with
    | nil =>
      exfalso
      have := congrArg List.length hu
      simp [plusZeroZ] at this
    | cons c rest =>
      by_cases hpre : plusZeroZ.isPrefixOf (c :: rest) = true
      · have heq : pyReplace (c :: rest) plusZeroZ plusZero =
            plusZero ++ pyReplace (rest.drop 6) plusZeroZ plusZero := by
          rw [hpz, pyReplace_cons]
          rw [hpz] at hpre
          rw [if_pos hpre]
          rfl
        rw [heq]
        obtain ⟨v, hv⟩ := (isPrefixOf_exists plusZeroZ (c :: rest)).mp hpre
        have hcrest : c :: rest = plusZeroZ ++ v := hv.symm
        have hcc : c = '+' ∧ rest = '0' :: '0' :: ':' :: '0' :: '0' :: 'Z' :: v := by
          have h := hcrest
          rw [hpz] at h
          simpa using h
        have hdrop : rest.drop 6 = v := by
          rw [hcc.2]
          rfl
        rw [hdrop]
        have hulen : u.length = v.length := by
          have h1 := congrArg List.length hu
          have h2 := congrArg List.length hcrest
          simp [plusZeroZ] at h1 h2
          omega
        by_cases hvnil : v = []
        · subst hvnil
          rw [hpz, pyReplace_nil]
          intro hcon
          simp [plusZero] at hcon
        · by_cases hge : 7 ≤ v.length
          · -- the trailing occurrence survives the drop
            have hsplit : u ++ plusZeroZ = plusZeroZ ++ v := by
              rw [hu, hcrest]
            have hu7 : u.take 7 = plusZeroZ := by
              have h1 : (u ++ plusZeroZ).take 7 = u.take 7 := by
                have hdecomp : u ++ plusZeroZ = u.take 7 ++ (u.drop 7 ++ plusZeroZ) := by
                  rw [← List.append_assoc, List.take_append_drop]
                rw [hdecomp, List.take_left' (by simp [List.length_take]; omega)]
              have h2 : (plusZeroZ ++ v).take 7 = plusZeroZ := List.take_left' (by rfl)
              rw [← h1, hsplit, h2]
            have hvsuf : u.drop 7 ++ plusZeroZ = v := by
              have hdecomp : u = plusZeroZ ++ u.drop 7 := by
                conv_lhs => rw [← List.take_append_drop 7 u]
                rw [hu7]
              have hthis := hsplit
              rw [hdecomp, List.append_assoc] at hthis
              exact List.append_cancel_left hthis
            have hvlen : v.length ≤ n := by
              have h2 := congrArg List.length hcrest
              simp [plusZeroZ] at h2
              simp at hlen
              omega
            intro hcon
            have hXne : pyReplace v plusZeroZ plusZero ≠ [] :=
              pyReplace_ne_nil v plusZeroZ plusZero hvnil (by simp [plusZeroZ]) (by simp [plusZero])
            rw [List.getLast?_append] at hcon
            obtain ⟨a, ha⟩ : ∃ a, (pyReplace v plusZeroZ plusZero).getLast? = some a := by
              cases hX : (pyReplace v plusZeroZ plusZero).getLast? with
              | none => exact absurd (List.getLast?_eq_none_iff.mp hX) hXne
              | some a => exact ⟨a, rfl⟩
            rw [ha] at hcon
            simp only [Option.or_some, Option.some.injEq] at hcon
            rw [hcon] at ha
            exact ih v hvlen ⟨u.drop 7, hvsuf⟩ ha
          · -- overlap case: the pattern would need a border, contradiction
            exfalso
            have hsplit : u ++ plusZeroZ = plusZeroZ ++ v := by
              rw [hu, hcrest]
            set k := v.length with hk
            clear_value k
            have hk1 : 1 ≤ k := by
              rw [hk]
              exact List.length_pos.mpr hvnil
            have hk6 : k ≤ 6 := by omega
            have hukeq : u = plusZeroZ.take k := by
              have h1 : (u ++ plusZeroZ).take k = u := List.take_left' hulen
              have h2 : (plusZeroZ ++ v).take k = plusZeroZ.take k := by
                have hdecomp : plusZeroZ ++ v = plusZeroZ.take k ++ (plusZeroZ.drop k ++ v) := by
                  rw [← List.append_assoc, List.take_append_drop]
                rw [hdecomp, List.take_left' (by simp [List.length_take, plusZeroZ]; omega)]
              calc u = (u ++ plusZeroZ).take k := h1.symm
                _ = (plusZeroZ ++ v).take k := by rw [hsplit]
                _ = plusZeroZ.take k := h2
            have hpatsplit : plusZeroZ = plusZeroZ.drop k ++ v := by
              have h1 : (u ++ plusZeroZ).drop k = plusZeroZ := List.drop_left' hulen
              have h2 : (plusZeroZ ++ v).drop k = plusZeroZ.drop k ++ v := by
                have hdecomp : plusZeroZ ++ v = plusZeroZ.take k ++ (plusZeroZ.drop k ++ v) := by
                  rw [← List.append_assoc, List.take_append_drop]
                rw [hdecomp, List.drop_left' (by simp [List.length_take, plusZeroZ]; omega)]
              calc plusZeroZ = (u ++ plusZeroZ).drop k := h1.symm
                _ = (plusZeroZ ++ v).drop k := by rw [hsplit]
                _ = plusZeroZ.drop k ++ v := h2
            have hborder : plusZeroZ.take (7 - k) = plusZeroZ.drop k := by
              have h2 : (plusZeroZ.drop k ++ v).take (7 - k) = plusZeroZ.drop k := by
                apply List.take_left'
                simp [plusZeroZ]
              calc plusZeroZ.take (7 - k) = (plusZeroZ.drop k ++ v).take (7 - k) := by
                    rw [← hpatsplit]
                _ = plusZeroZ.drop k := h2
            interval_cases k <;> exact absurd hborder (by decide)
      · have heq : pyReplace (c :: rest) plusZeroZ plusZero =
            c :: pyReplace rest plusZeroZ plusZero := by
          rw [hpz, pyReplace_cons]
          rw [hpz] at hpre
          rw [if_neg hpre]
        rw [heq]
        cases u with
        | nil =>
          exfalso
          apply hpre
          rw [← hu]
          simp only [List.nil_append]
          rw [hpz]
          decide
        | cons a u' =>
          have hc : a = c ∧ u' ++ plusZeroZ = rest := by
            have hx := hu
            simp only [List.cons_append, List.cons.injEq] at hx
            exact hx
          have hrestne : rest ≠ [] := by
            rw [← hc.2]
            intro hcon
            have := congrArg List.length hcon
            simp [plusZeroZ] at this
          have hXne : pyReplace rest plusZeroZ plusZero ≠ [] :=
            pyReplace_ne_nil rest plusZeroZ plusZero hrestne (by simp [plusZeroZ])
              (by simp [plusZero])
          intro hcon
          have hsplit : (c :: pyReplace rest plusZeroZ plusZero)
              = [c] ++ pyReplace rest plusZeroZ plusZero := rfl
          rw [hsplit, List.getLast?_append] at hcon
          obtain ⟨b, hb⟩ : ∃ b, (pyReplace rest plusZeroZ plusZero).getLast? = some b := by
            cases hX : (pyReplace rest plusZeroZ plusZero).getLast? with
            | none => exact absurd (List.getLast?_eq_none_iff.mp hX) hXne
            | some b => exact ⟨b, rfl⟩
          rw [hb] at hcon
          simp only [Option.or_some, Option.some.injEq] at hcon
          rw [hcon] at hb
          have hlen' : rest.length ≤ n := by
            simp at hlen
            omega
          exact ih rest hlen' ⟨u', hc.2⟩ hb

theorem sanitize_not_endZ (ts : List Char) :
    pyEndsWith (sanitize_iso_timestamp ts) ['Z'] = false := by
  unfold sanitize_iso_timestamp
  by_cases h1 : pyEndsWith ts plusZeroZ = true
  · rw [if_pos h1]
    obtain ⟨u, hu⟩ := (isSuffixOf_exists plusZeroZ ts).mp h1
    have hlast := replace_plusZeroZ_getLast ts.length ts (le_refl _) ⟨u, hu⟩
    rw [Bool.eq_false_iff]
    intro hcon
    exact hlast ((pyEndsWith_single _ _).mp hcon)
  · rw [if_neg h1]
    by_cases h2 : (pyEndsWith ts ['Z'] && pyContains ts plusZero) = true
    · rw [if_pos h2]
      rw [Bool.eq_false_iff]
      intro hcon
      have hmem := List.mem_of_getLast?_eq_some ((pyEndsWith_single _ _).mp hcon)
      exact (mem_pyReplace_singleton ts [] 'Z' (by simp)) hmem
    · rw [if_neg h2]
      by_cases h3 : pyEndsWith ts ['Z'] = true
      · rw [if_pos h3]
        rw [Bool.eq_false_iff]
        intro hcon
        have hmem := List.mem_of_getLast?_eq_some ((pyEndsWith_single _ _).mp hcon)
        exact (mem_pyReplace_singleton ts plusZero 'Z' (by decide)) hmem
      · rw [if_neg h3]
        simp only [Bool.not_eq_true] at h3
        exact h3

/-- C10: `sanitize_iso_timestamp` is idempotent: applying it twice equals
applying it once, because its output never ends with the character `'Z'`
(so no rewrite branch of a second application can fire). -/
theorem C10_sanitize_iso_timestamp_idempotent (ts : List Char) :
    pyEndsWith (sanitize_iso_timestamp ts) ['Z'] = false ∧
    sanitize_iso_timestamp (sanitize_iso_timestamp ts) = sanitize_iso_timestamp ts := by
  refine ⟨sanitize_not_endZ ts, ?_⟩
  have hz := sanitize_not_endZ ts
  set r := sanitize_iso_timestamp ts with hr
  have h1' : ¬ pyEndsWith r plusZeroZ = true := by
    intro hcon
    have hZ := pyEndsWith_plusZeroZ_endZ r hcon
    rw [hz] at hZ
    exact Bool.false_ne_true hZ
  have h3' : ¬ pyEndsWith r ['Z'] = true := by
    rw [hz]
    exact Bool.false_ne_true
  have h2' : ¬ (pyEndsWith r ['Z'] && pyContains r plusZero) = true := by
    rw [hz]
    simp
  unfold sanitize_iso_timestamp
  rw [if_neg h1', if_neg h2', if_neg h3']

/-- Model of JSON / deserialized Python values.  Python `int` and `float` are
both modelled as `jnum` over `ℚ`. -/
inductive JVal where
  | jnull : JVal
  | jbool : Bool → JVal
  | jnum : ℚ → JVal
  | jstr : String → JVal
  | jarr : List JVal → JVal
  | jobj : List (String × JVal) → JVal

/-- CPython `dict` insertion: an existing key keeps its position and gets the
new value, a fresh key is appended. -/
def objInsert (kvs : List (String × JVal)) (k : String) (v : JVal) :
    List (String × JVal) :=
  if kvs.any (fun p => p.1 == k) then
    kvs.map (fun p => if p.1 == k then (k, v) else p)
  else
    kvs ++ [(k, v)]

/-- Python `dict` key lookup (`d[k]`), `none` for a `KeyError`. -/
def objLookup (kvs : List (String × JVal)) (k : String) : Option JVal :=
  (kvs.find? (fun p => p.1 == k)).map (fun p => p.2)

/-- Python `k in d` for a dict. -/
def objHasKey (kvs : List (String × JVal)) (k : String) : Bool :=
  kvs.any (fun p => p.1 == k)

def isWsChar (c : Char) : Bool := c = ' ' || c = '\t' || c = '\n' || c = '\r'

def skipWs : List Char → List Char
  | [] => []
  | c :: rest => if isWsChar c then skipWs rest else c :: rest

def isDigitChar (c : Char) : Bool := '0' ≤ c && c ≤ '9'

def digitVal (c : Char) : ℕ := c.toNat - '0'.toNat

def takeDigits : List Char → (List Char × List Char)
  | [] => ([], [])
  | c :: rest =>
    if isDigitChar c then
      let p := takeDigits rest
      (c :: p.1, p.2)
    else ([], c :: rest)

def digitsToNat (ds : List Char) : ℕ := ds.foldl (fun a c => a * 10 + digitVal c) 0

def hexVal (c : Char) : Option ℕ :=
  if isDigitChar c then some (digitVal c)
  else if 'a' ≤ c ∧ c ≤ 'f' then some (c.toNat - 'a'.toNat + 10)
  else if 'A' ≤ c ∧ c ≤ 'F' then some (c.toNat - 'A'.toNat + 10)
  else none

/-- Body of a JSON string after the opening quote; returns the decoded
characters and the input following the closing quote.  Escapes are decoded as
`json.loads` does (`\uXXXX` is mapped through `Char.ofNat`; surrogate-pair
recombination is not modelled). -/
def parseStringBody : ℕ → List Char → Option (List Char × List Char)
  | 0, _ => none
  | _ + 1, [] => none
  | fuel + 1, c :: rest =>
    if c = '"' then some ([], rest)
    else if c = '\\' then
      match rest with
      | [] => none
      | e :: rest2 =>
        let esc : Option (List Char × List Char) :=
          if e = '"' then some (['"'], rest2)
          else if e = '\\' then some (['\\'], rest2)
          else if e = '/' then some (['/'], rest2)
          else if e = 'b' then some (['\x08'], rest2)
          else if e = 'f' then some (['\x0c'], rest2)
          else if e = 'n' then some (['\n'], rest2)
          else if e = 'r' then some (['\r'], rest2)
          else if e = 't' then some (['\t'], rest2)
          else if e = 'u' then
            match rest2 with
            | h1 :: h2 :: h3 :: h4 :: rest3 =>
              match hexVal h1, hexVal h2, hexVal h3, hexVal h4 with
              | some v1, some v2, some v3, some v4 =>
                some ([Char.ofNat (((v1 * 16 + v2) * 16 + v3) * 16 + v4)], rest3)
              | _, _, _, _ => none
            | _ => none
          else none
        match esc with
        | none => none
        | some (cs, r) =>
          match parseStringBody fuel r with
          | none => none
          | some (tail, r2) => some (cs ++ tail, r2)
    else if c.toNat < 32 then none
    else
      match parseStringBody fuel rest with
      | none => none
      | some (tail, r2) => some (c :: tail, r2)

/-- JSON exponent suffix `e`/`E` with optional sign; `(0, s)` when absent. -/
def parseExp : List Char → Option (ℤ × List Char)
  | [] => some (0, [])
  | c :: r =>
    if c = 'e' ∨ c = 'E' then
      let p : Bool × List Char :=
        match r with
        | '+' :: rr => (false, rr)
        | '-' :: rr => (true, rr)
        | _ => (false, r)
      let q := takeDigits p.2
      if q.1 = [] then none
      else some ((if p.1 then -(digitsToNat q.1 : ℤ) else (digitsToNat q.1 : ℤ)), q.2)
    else some (0, c :: r)

def parseFrac : List Char → Option (ℚ × List Char)
  | '.' :: r =>
    let p := takeDigits r
    if p.1 = [] then none
    else some ((digitsToNat p.1 : ℚ) / (10 : ℚ) ^ p.1.length, p.2)
  | s => some (0, s)

/-- Strict JSON number grammar, as enforced by `json.loads`. -/
def parseNumber (s : List Char) : Option (ℚ × List Char) :=
  let pSign : Bool × List Char :=
    match s with
    | '-' :: r => (true, r)
    | _ => (false, s)
  let pInt := takeDigits pSign.2
  if pInt.1 = [] then none
  else if 1 < pInt.1.length ∧ pInt.1.head? = some '0' then none
  else
    match parseFrac pInt.2 with
    | none => none
    | some (fq, s3) =>
      match parseExp s3 with
      | none => none
      | some (ex, s4) =>
        let mag : ℚ := ((digitsToNat pInt.1 : ℚ) + fq) * (10 : ℚ) ^ ex
        some ((if pSign.1 then -mag else mag), s4)

mutual

/-- Fuelled JSON value parser (recursive descent, mirroring `json.loads`). -/
def parseValueF : ℕ → List Char → Option (JVal × List Char)
  | 0, _ => none
  | fuel + 1, s =>
    match skipWs s with
    | [] => none
    | c :: rest =>
      if c = '\x7b' then
        match skipWs rest with
        | '\x7d' :: r => some (JVal.jobj [], r)
        | _ => parseObjItemsF fuel rest []
      else if c = '[' then
        match skipWs rest with
        | ']' :: r => some (JVal.jarr [], r)
        | _ => parseArrItemsF fuel rest []
      else if c = '"' then
        match parseStringBody (rest.length + 1) rest with
        | none => none
        | some (cs, r) => some (JVal.jstr (String.mk cs), r)
      else if c = 'n' then
        match rest with
        | 'u' :: 'l' :: 'l' :: r => some (JVal.jnull, r)
        | _ => none
      else if c = 't' then
        match rest with
        | 'r' :: 'u' :: 'e' :: r => some (JVal.jbool true, r)
        | _ => none
      else if c = 'f' then
        match rest with
        | 'a' :: 'l' :: 's' :: 'e' :: r => some (JVal.jbool false, r)
        | _ => none
      else
        match parseNumber (c :: rest) with
        | none => none
        | some (q, r) => some (JVal.jnum q, r)

def parseArrItemsF : ℕ → List Char → List JVal → Option (JVal × List Char)
  | 0, _, _ => none
  | fuel + 1, s, acc =>
    match parseValueF fuel s with
    | none => none
    | some (v, r) =>
      match skipWs r with
      | ',' :: r2 => parseArrItemsF fuel r2 (v :: acc)
      | ']' :: r2 => some (JVal.jarr (v :: acc).reverse, r2)
      | _ => none

def parseObjItemsF : ℕ → List Char → List (String × JVal) → Option (JVal × List Char)
  | 0, _, _ => none
  | fuel + 1, s, acc =>
    match skipWs s with
    | '"' :: r =>
      match parseStringBody (r.length + 1) r with
      | none => none
      | some (ks, r2) =>
        match skipWs r2 with
        | ':' :: r3 =>
          match parseValueF fuel r3 with
          | none => none
          | some (v, r4) =>
            let acc2 := objInsert acc (String.mk ks) v
            match skipWs r4 with
            | ',' :: r5 => parseObjItemsF fuel r5 acc2
            | '\x7d' :: r5 => some (JVal.jobj acc2, r5)
            | _ => none
        | _ => none
    | _ => none

end

/-- Model of `json.loads`: parse one JSON value and require only trailing
whitespace; `none` models a raised `JSONDecodeError`. -/
def json_loads (s : String) : Option JVal :=
  match parseValueF (s.data.length + 1) s.data with
  | none => none
  | some (v, r) => if skipWs r = [] then some v else none

/-- Python truthiness of a deserialized value. -/
def pyTruthy : JVal → Bool
  | JVal.jnull => false
  | JVal.jbool b => b
  | JVal.jnum q => q != 0
  | JVal.jstr s => !(s == "")
  | JVal.jarr l => !l.isEmpty
  | JVal.jobj l => !l.isEmpty

/-- Python `len(x)`, `none` models a `TypeError` for objects without a length. -/
def pyLen : JVal → Option ℕ
  | JVal.jstr s => some s.length
  | JVal.jarr l => some l.length
  | JVal.jobj l => some l.length
  | _ => none

/-- Python `x[i]` at a natural index: list and string indexing; out of range is
an `IndexError` and any other receiver a `TypeError`/`KeyError`, modelled as
`none` (our dicts only carry string keys). -/
def pyIndexNat : JVal → ℕ → Option JVal
  | JVal.jarr l, i => l.get? i
  | JVal.jstr s, i => (s.data.get? i).map (fun c => JVal.jstr (String.mk [c]))
  | _, _ => none

/-- Truncation toward zero, as Python `int(float)`. -/
def ratTrunc (q : ℚ) : ℤ := q.num.tdiv (q.den : ℤ)

/-- Python `float(str)` on plain decimal literals (optional sign, digits with
an optional fractional part, optional exponent); `inf`/`nan`/whitespace and
underscore forms are not modelled. -/
def floatOfChars (s : List Char) : Option ℚ :=
  let p0 : Bool × List Char :=
    match s with
    | '-' :: r => (true, r)
    | '+' :: r => (false, r)
    | _ => (false, s)
  let pInt := takeDigits p0.2
  let pDot : List Char × List Char :=
    match pInt.2 with
    | '.' :: r => takeDigits r
    | _ => ([], pInt.2)
  if pInt.1 = [] ∧ pDot.1 = [] then none
  else
    match parseExp pDot.2 with
    | none => none
    | some (ex, s4) =>
      if s4 = [] then
        let mag : ℚ :=
          ((digitsToNat pInt.1 : ℚ) + (digitsToNat pDot.1 : ℚ) / (10 : ℚ) ^ pDot.1.length)
            * (10 : ℚ) ^ ex
        some (if p0.1 then -mag else mag)
      else none

/-- Python `int(str)` on plain integer literals (optional sign, digits). -/
def intOfChars (s : List Char) : Option ℤ :=
  let p0 : Bool × List Char :=
    match s with
    | '-' :: r => (true, r)
    | '+' :: r => (false, r)
    | _ => (false, s)
  let p := takeDigits p0.2
  if p.1 = [] ∨ p.2 ≠ [] then none
  else some (if p0.1 then -(digitsToNat p.1 : ℤ) else (digitsToNat p.1 : ℤ))

/-- Python `float(x)` as used by the handlers; `none` models the raised
`TypeError`/`ValueError`. -/
def pyFloat : JVal → Option ℚ
  | JVal.jnum q => some q
  | JVal.jbool b => some (if b then 1 else 0)
  | JVal.jstr s => floatOfChars s.data
  | _ => none

/-- Python `int(x)` as used by the handlers. -/
def pyInt : JVal → Option ℤ
  | JVal.jnum q => some (ratTrunc q)
  | JVal.jbool b => some (if b then 1 else 0)
  | JVal.jstr s => intOfChars s.data
  | _ => none

/-- Numeric view of a value for Python comparisons (`bool` counts as `int`);
`none` models the `TypeError` of comparing a non-number. -/
def pyNumVal : JVal → Option ℚ
  | JVal.jnum q => some q
  | JVal.jbool b => some (if b then 1 else 0)
  | _ => none

/-- Days since 1970-01-01 of a civil date (Hinnant's algorithm). -/
def daysFromCivil (y m d : ℤ) : ℤ :=
  let y' := if m ≤ 2 then y - 1 else y
  let era := Int.fdiv y' 400
  let yoe := y' - era * 400
  let mp := Int.emod (m + 9) 12
  let doy := Int.ediv (153 * mp + 2) 5 + d - 1
  let doe := yoe * 365 + Int.ediv yoe 4 - Int.ediv yoe 100 + doy
  era * 146097 + doe - 719468

/-- Civil date of a days-since-epoch count (inverse of `daysFromCivil`). -/
def civilFromDays (z : ℤ) : ℤ × ℤ × ℤ :=
  let z' := z + 719468
  let era := Int.fdiv z' 146097
  let doe := z' - era * 146097
  let yoe :=
    Int.ediv (doe - Int.ediv doe 1460 + Int.ediv doe 36524 - Int.ediv doe 146096) 365
  let y := yoe + era * 400
  let doy := doe - (365 * yoe + Int.ediv yoe 4 - Int.ediv yoe 100)
  let mp := Int.ediv (5 * doy + 2) 153
  let d := doy - Int.ediv (153 * mp + 2) 5 + 1
  let m := if mp < 10 then mp + 3 else mp - 9
  (if m ≤ 2 then y + 1 else y, m, d)

def isLeapYear (y : ℤ) : Bool :=
  (Int.emod y 4 == 0 && Int.emod y 100 != 0) || Int.emod y 400 == 0

def daysInMonth (y m : ℤ) : ℤ :=
  if m = 2 then (if isLeapYear y then 29 else 28)
  else if m = 4 ∨ m = 6 ∨ m = 9 ∨ m = 11 then 30
  else 31

/-- Reads exactly `n` decimal digits into a number. -/
def readDigitsN : ℕ → List Char → Option (ℕ × List Char)
  | 0, s => some (0, s)
  | _ + 1, [] => none
  | n + 1, c :: r =>
    if isDigitChar c then
      (readDigitsN n r).map (fun p => (digitVal c * 10 ^ n + p.1, p.2))
    else none

/-- Model of `datetime.fromisoformat` restricted to the shapes this pipeline
produces: `YYYY-MM-DD`, optionally followed by `[T ]HH:MM:SS` and an optional
`±HH:MM` offset.  The result is the clock-face value as seconds since the
epoch (the relational `TIMESTAMP` columns discard the offset); `none` models
the raised `ValueError`. -/
def fromisoformatSec (s : List Char) : Option ℤ :=
  match readDigitsN 4 s with
  | none => none
  | some (y, r1) =>
    match r1 with
    | '-' :: r2 =>
      match readDigitsN 2 r2 with
      | none => none
      | some (mo, r3) =>
        match r3 with
        | '-' :: r4 =>
          match readDigitsN 2 r4 with
          | none => none
          | some (d, r5) =>
            if 1 ≤ mo ∧ mo ≤ 12 ∧ 1 ≤ d ∧ (d : ℤ) ≤ daysInMonth (y : ℤ) (mo : ℤ) then
              let base := daysFromCivil (y : ℤ) (mo : ℤ) (d : ℤ) * 86400
              match r5 with
              | [] => some base
              | sep :: r6 =>
                if sep = 'T' ∨ sep = ' ' then
                  match readDigitsN 2 r6 with
                  | none => none
                  | some (hh, r7) =>
                    match r7 with
                    | ':' :: r8 =>
                      match readDigitsN 2 r8 with
                      | none => none
                      | some (mi, r9) =>
                        match r9 with
                        | ':' :: r10 =>
                          match readDigitsN 2 r10 with
                          | none => none
                          | some (ss, r11) =>
                            if hh ≤ 23 ∧ mi ≤ 59 ∧ ss ≤ 59 then
                              let t := base + (hh : ℤ) * 3600 + (mi : ℤ) * 60 + (ss : ℤ)
                              match r11 with
                              | [] => some t
                              | sgn :: r12 =>
                                if sgn = '+' ∨ sgn = '-' then
                                  match readDigitsN 2 r12 with
                                  | none => none
                                  | some (oh, r13) =>
                                    match r13 with
                                    | ':' :: r14 =>
                                      match readDigitsN 2 r14 with
                                      | none => none
                                      | some (om, r15) =>
                                        if oh ≤ 23 ∧ om ≤ 59 ∧ r15 = [] then some t
                                        else none
                                    | _ => none
                                else none
                            else none
                        | _ => none
                    | _ => none
                else none
            else none
        | _ => none
    | _ => none

def natDigitsAux : ℕ → ℕ → List Char → List Char
  | 0, _, acc => acc
  | _ + 1, 0, acc => acc
  | fuel + 1, n, acc =>
    natDigitsAux fuel (n / 10) (Char.ofNat ('0'.toNat + n % 10) :: acc)

def natDigits (n : ℕ) : List Char :=
  if n = 0 then ['0'] else natDigitsAux (n + 1) n []

def padZeros (w : ℕ) (ds : List Char) : List Char :=
  List.replicate (w - ds.length) '0' ++ ds

/-- Model of `datetime.isoformat(timespec='seconds')` of a naive datetime given as
clock-face epoch seconds (years up to 9999). -/
def isoformatSec (t : ℤ) : List Char :=
  let days := Int.ediv t 86400
  let sod := (Int.emod t 86400).toNat
  let c := civilFromDays days
  padZeros 4 (natDigits c.1.toNat) ++ '-' :: padZeros 2 (natDigits c.2.1.toNat) ++
    '-' :: padZeros 2 (natDigits c.2.2.toNat) ++ 'T' :: padZeros 2 (natDigits (sod / 3600)) ++
    ':' :: padZeros 2 (natDigits ((sod / 60) % 60)) ++ ':' :: padZeros 2 (natDigits (sod % 60))

/-- One parsed sensor row of `store_sensor_data` (timestamp as clock-face
epoch seconds). -/
structure SensorRow where
  ts : ℤ
  building_id : ℤ
  temperature : ℚ
  humidity : ℚ
  occupancy : ℤ
  energy : ℚ
  current : ℚ
  voltage : ℚ
  power_factor : ℚ
  power : ℚ
deriving DecidableEq

/-- The eight flattened columns built by `store_sensor_data`. -/
structure Flattened where
  temperature : List ℚ
  humidity : List ℚ
  occupancy : List ℤ
  energy : List ℚ
  current : List ℚ
  voltage : List ℚ
  power_factor : List ℚ
  power : List ℚ
deriving DecidableEq

def emptyFlattened : Flattened := ⟨[], [], [], [], [], [], [], []⟩

/-- Python `d.get(k, default)` on a dict. -/
def objGetD (kvs : List (String × JVal)) (k : String) (dflt : JVal) : JVal :=
  match objLookup kvs k with
  | some v => v
  | none => dflt

/-- The try-block of `store_sensor_data`'s inner loop
(`FetchFirebaseData/__init__.py` lines 109-130): parse the timestamp and the
eight numeric fields of one leaf; any failure raises inside the `try` and the
leaf is skipped, before anything was appended.  `bkey` is the building key
(dict key or list index). -/
def parseSensorLeaf (bkey : JVal) (tsStr : String) (values : JVal) :
    Option SensorRow := do
  let ts ← fromisoformatSec (pyReplace tsStr.data ['Z'] plusZero)
  let kvs ← (match values with | JVal.jobj kvs => some kvs | _ => none)
  let temp ← pyFloat (objGetD kvs "temperature" (JVal.jnum 0))
  let hum ← pyFloat (objGetD kvs "humidity" (JVal.jnum 0))
  let occ ← pyInt (objGetD kvs "occupancy" (JVal.jnum 0))
  let energy ← pyFloat (objGetD kvs "energy" (JVal.jnum 0))
  let cur ← pyFloat (objGetD kvs "current" (JVal.jnum 0))
  let volt ← pyFloat (objGetD kvs "voltage" (JVal.jnum 0))
  let pf ← pyFloat (objGetD kvs "power_factor" (JVal.jnum 1))
  let pw ← pyFloat (objGetD kvs "power" (JVal.jnum 0))
  let bid ← pyInt bkey
  pure ⟨ts, bid, temp, hum, occ, energy, cur, volt, pf, pw⟩

/-- Appends one parsed row to `rows` and to each flattened column, exactly as
lines 120-130 do. -/
def pushRow (acc : List SensorRow × Flattened) (r : SensorRow) :
    List SensorRow × Flattened :=
  (acc.1 ++ [r],
   ⟨acc.2.temperature ++ [r.temperature], acc.2.humidity ++ [r.humidity],
    acc.2.occupancy ++ [r.occupancy], acc.2.energy ++ [r.energy],
    acc.2.current ++ [r.current], acc.2.voltage ++ [r.voltage],
    acc.2.power_factor ++ [r.power_factor], acc.2.power ++ [r.power]⟩)

def processLeaf (bkey : JVal) (acc : List SensorRow × Flattened)
    (kv : String × JVal) : List SensorRow × Flattened :=
  match parseSensorLeaf bkey kv.1 kv.2 with
  | some r => pushRow acc r
  | none => acc

/-- One outer-loop iteration: non-dict `readings` are skipped (`continue`). -/
def processBuilding (acc : List SensorRow × Flattened) (entry : JVal × JVal) :
    List SensorRow × Flattened :=
  match entry.2 with
  | JVal.jobj readings => readings.foldl (processLeaf entry.1) acc
  | _ => acc

/-- Model of `snapshot.items()` for a dict snapshot, `enumerate(snapshot)` for a list
(lines 97-100); `none` for an unsupported snapshot type. -/
def snapshotItems : JVal → Option (List (JVal × JVal))
  | JVal.jobj kvs => some (kvs.map (fun p => (JVal.jstr p.1, p.2)))
  | JVal.jarr l => some (l.enum.map (fun p => (JVal.jnum (p.1 : ℚ), p.2)))
  | _ => none

/-- The pure core of `FetchFirebaseData.store_sensor_data` (lines 84-133):
iterates the snapshot, skipping leaves whose parse raises, and returns the
rows later handed to the upsert statement together with the flattened
columns.  An unsupported snapshot type returns the empty `flattened` early. -/
def store_sensor_data (snapshot : JVal) : List SensorRow × Flattened :=
  match snapshotItems snapshot with
  | none => ([], emptyFlattened)
  | some items => items.foldl processBuilding ([], emptyFlattened)

/-- The leaf readings of a snapshot in iteration order, each as
(building key, timestamp string, value). -/
def snapshotLeaves (snapshot : JVal) : List (JVal × String × JVal) :=
  match snapshotItems snapshot with
  | none => []
  | some items =>
    items.flatMap (fun e =>
      match e.2 with
      | JVal.jobj readings => readings.map (fun kv => (e.1, kv.1, kv.2))
      | _ => [])

def pushAll (acc : List SensorRow × Flattened) (rs : List SensorRow) :
    List SensorRow × Flattened :=
  rs.foldl pushRow acc

theorem foldl_processLeaf (bkey : JVal) :
    ∀ (readings : List (String × JVal)) (acc : List SensorRow × Flattened),
    readings.foldl (processLeaf bkey) acc =
      pushAll acc (readings.filterMap (fun kv => parseSensorLeaf bkey kv.1 kv.2)) := by
  intro readings
  induction readings with
  | nil => intro acc; rfl
  | cons kv rest ih =>
    intro acc
    rw [List.foldl_cons, List.filterMap_cons]
    cases h : parseSensorLeaf bkey kv.1 kv.2 with
    | none =>
      rw [ih]
      simp only [processLeaf, h]
    | some r =>
      rw [ih]
      simp only [processLeaf, h, pushAll, List.foldl_cons]

theorem foldl_processBuilding :
    ∀ (items : List (JVal × JVal)) (acc : List SensorRow × Flattened),
    items.foldl processBuilding acc =
      pushAll acc ((items.flatMap (fun e =>
          match e.2 with
          | JVal.jobj readings => readings.map (fun kv => (e.1, kv.1, kv.2))
          | _ => [])).filterMap (fun l => parseSensorLeaf l.1 l.2.1 l.2.2)) := by
  intro items
  induction items with
  | nil => intro acc; rfl
  | cons e rest ih =>
    intro acc
    rw [List.foldl_cons, List.flatMap_cons, List.filterMap_append]
    have hstep : processBuilding acc e =
        pushAll acc ((match e.2 with
          | JVal.jobj readings =>
            readings.map (fun kv : String × JVal => (e.1, kv.1, kv.2))
          | _ => ([] : List (JVal × String × JVal))).filterMap
            (fun l : JVal × String × JVal => parseSensorLeaf l.1 l.2.1 l.2.2)) := by
      cases e2 : e.2 with
      | jobj readings =>
        simp only [processBuilding, e2, foldl_processLeaf]
        congr 1
        rw [List.filterMap_map]
        rfl
      | jnull => simp [processBuilding, e2, pushAll]
      | jbool b => simp [processBuilding, e2, pushAll]
      | jnum q => simp [processBuilding, e2, pushAll]
      | jstr s => simp [processBuilding, e2, pushAll]
      | jarr l => simp [processBuilding, e2, pushAll]
    rw [ih, hstep, pushAll, pushAll, pushAll, List.foldl_append]

theorem pushAll_spec : ∀ (rs : List SensorRow) (acc : List SensorRow × Flattened),
    pushAll acc rs =
      (acc.1 ++ rs,
       ⟨acc.2.temperature ++ rs.map SensorRow.temperature,
        acc.2.humidity ++ rs.map SensorRow.humidity,
        acc.2.occupancy ++ rs.map SensorRow.occupancy,
        acc.2.energy ++ rs.map SensorRow.energy,
        acc.2.current ++ rs.map SensorRow.current,
        acc.2.voltage ++ rs.map SensorRow.voltage,
        acc.2.power_factor ++ rs.map SensorRow.power_factor,
        acc.2.power ++ rs.map SensorRow.power⟩) := by
  intro rs
  induction rs with
  | nil =>
    intro acc
    obtain ⟨rows, flat⟩ := acc
    cases flat
    simp [pushAll]
  | cons r rest ih =>
    intro acc
    rw [show pushAll acc (r :: rest) = pushAll (pushRow acc r) rest from rfl, ih]
    simp [pushRow, List.append_assoc]

/-- C1 (amended): `store_sensor_data` produces exactly one row — and one
appended entry in each of the eight flattened columns — for every leaf
reading whose full per-leaf parse succeeds (timestamp parse, dict-shaped
value, numeric field coercions and building-key coercion), in iteration
order; a leaf whose parse raises is skipped without aborting the batch, so
the rows are exactly the `filterMap` of the leaf parser over all leaves. -/
theorem C1_store_sensor_data_row_per_parsed_leaf (snapshot : JVal) :
    (store_sensor_data snapshot).1 =
      (snapshotLeaves snapshot).filterMap (fun l => parseSensorLeaf l.1 l.2.1 l.2.2) ∧
    (store_sensor_data snapshot).2 =
      ⟨(store_sensor_data snapshot).1.map SensorRow.temperature,
       (store_sensor_data snapshot).1.map SensorRow.humidity,
       (store_sensor_data snapshot).1.map SensorRow.occupancy,
       (store_sensor_data snapshot).1.map SensorRow.energy,
       (store_sensor_data snapshot).1.map SensorRow.current,
       (store_sensor_data snapshot).1.map SensorRow.voltage,
       (store_sensor_data snapshot).1.map SensorRow.power_factor,
       (store_sensor_data snapshot).1.map SensorRow.power⟩ := by
  unfold store_sensor_data snapshotLeaves
  cases hs : snapshotItems snapshot with
  | none => simp [emptyFlattened]
  | some items =>
    dsimp only
    rw [foldl_processBuilding, pushAll_spec]
    simp [emptyFlattened]

/-- A snapshot with a single leaf whose timestamp parses but whose
`temperature` field is not numeric. -/
def c1BadSnapshot : JVal :=
  JVal.jobj [("1", JVal.jobj
    [("2024-01-01T00:00:00", JVal.jobj [("temperature", JVal.jstr "abc")])])]

/-- C1 counterexample: this snapshot has exactly one leaf and that leaf's
timestamp parses, yet `store_sensor_data` emits no row and appends nothing to
the flattened columns — `float("abc")` raises inside the same `try` and the
leaf is dropped — refuting "exactly one output row for every leaf reading
whose timestamp parses". -/
theorem C1_counterexample_field_failure :
    snapshotLeaves c1BadSnapshot =
      [(JVal.jstr "1", "2024-01-01T00:00:00",
        JVal.jobj [("temperature", JVal.jstr "abc")])] ∧
    fromisoformatSec (pyReplace "2024-01-01T00:00:00".data ['Z'] plusZero) =
      some 1704067200 ∧
    (store_sensor_data c1BadSnapshot).1 = [] ∧
    (store_sensor_data c1BadSnapshot).2.temperature = [] := by
  exact ⟨rfl, rfl, rfl, rfl⟩

/-- One row fetched by `generate_recommendations_from_db`'s SELECT: sensor
fields LEFT-JOINed with the (nullable) prediction fields.  Sensor columns are
taken non-null, as every pipeline write supplies them. -/
structure OptRow where
  ts : ℤ
  building_id : ℤ
  energy : ℚ
  occupancy : ℤ
  power_factor : ℚ
  temperature : ℚ
  predicted_energy : Option ℚ
  anomaly : Option String
deriving DecidableEq

/-- A recommendation record as built by the rule chain of
`OptimizeEnergy/optimize_energy.py` lines 50-81. -/
structure RecOut where
  description : String
  priority : String
  tag : String
deriving DecidableEq

def powerFactorRec : RecOut :=
  ⟨"Optimize power factor: Consider adding power factor correction capacitors.",
   "high", "power_factor"⟩

def energySpikeRec : RecOut :=
  ⟨"Reduce energy usage: Schedule high-energy equipment during off-peak hours.",
   "medium", "energy_spike"⟩

def occupancyMismatchRec : RecOut :=
  ⟨"Reduce HVAC and lighting: Low occupancy detected with high usage.",
   "medium", "occupancy_mismatch"⟩

def temperatureControlRec : RecOut :=
  ⟨"Adjust HVAC: Temperature exceeds 26°C, consider cooling optimization.",
   "low", "temperature_control"⟩

def normalRec : RecOut :=
  ⟨"No immediate action required: Conditions within optimal range.",
   "low", "normal"⟩

/-- Line 52: `anomaly and "power_factor_abnormal" in anomaly` (a NULL or empty
anomaly is falsy). -/
def anomalyTriggers : Option String → Bool
  | none => false
  | some s => (!(s == "")) && pyContains s.data "power_factor_abnormal".data

/-- Line 58: `predicted_energy and energy > predicted_energy * 1.2` (a NULL or
`0.0` prediction is falsy and skips the rule). -/
def spikeTriggers (pe : Option ℚ) (energy : ℚ) : Bool :=
  match pe with
  | none => false
  | some q => (q != 0) && decide (energy > q * 1.2)

/-- The claim's parenthetical energy-spike condition, read literally:
`energy > 1.2 × predicted_energy` (nothing to compare against when the
prediction is NULL). -/
def specSpikeTriggers (pe : Option ℚ) (energy : ℚ) : Bool :=
  match pe with
  | none => false
  | some q => decide (energy > 1.2 * q)

/-- The if/elif rule chain of `generate_recommendations_from_db`
(lines 50-81): first matching rule wins. -/
def generate_recommendation (row : OptRow) : RecOut :=
  if anomalyTriggers row.anomaly then powerFactorRec
  else if spikeTriggers row.predicted_energy row.energy then energySpikeRec
  else if row.occupancy < 5 ∧ row.energy > 30 then occupancyMismatchRec
  else if row.temperature > 26 then temperatureControlRec
  else normalRec

/-- The tuple appended to `recommendations` for one row (lines 83-88);
`predicted_energy if predicted_energy else 0.0` maps NULL and `0.0` to `0.0`. -/
def recommendationRow (row : OptRow) : ℤ × ℤ × ℚ × RecOut :=
  (row.ts, row.building_id,
   (match row.predicted_energy with
    | some q => if q != 0 then q else 0
    | none => 0),
   generate_recommendation row)

/-- C2 (amended): the recommendation rules are evaluated in fixed if/elif
order — power-factor anomaly, then energy spike (predicted_energy non-NULL
and nonzero and energy > 1.2 × predicted_energy), then occupancy mismatch
(occupancy < 5 and energy > 30), then temperature > 26 — so a row satisfying
both the anomaly condition and the energy-spike condition receives the
anomaly-based recommendation, and a row satisfying no rule receives the
"normal" recommendation. -/
theorem C2_recommendation_rule_precedence (row : OptRow) :
    (anomalyTriggers row.anomaly = true →
      generate_recommendation row = powerFactorRec) ∧
    (anomalyTriggers row.anomaly = false →
      spikeTriggers row.predicted_energy row.energy = true →
      generate_recommendation row = energySpikeRec) ∧
    (anomalyTriggers row.anomaly = false →
      spikeTriggers row.predicted_energy row.energy = false →
      row.occupancy < 5 ∧ row.energy > 30 →
      generate_recommendation row = occupancyMismatchRec) ∧
    (anomalyTriggers row.anomaly = false →
      spikeTriggers row.predicted_energy row.energy = false →
      ¬(row.occupancy < 5 ∧ row.energy > 30) →
      row.temperature > 26 →
      generate_recommendation row = temperatureControlRec) ∧
    (anomalyTriggers row.anomaly = false →
      spikeTriggers row.predicted_energy row.energy = false →
      ¬(row.occupancy < 5 ∧ row.energy > 30) →
      ¬(row.temperature > 26) →
      generate_recommendation row = normalRec) := by
  unfold generate_recommendation
  refine ⟨?_, ?_, ?_, ?_, ?_⟩
  · intro h1
    rw [if_pos h1]
  · intro h1 h2
    rw [if_neg (by rw [h1]; exact Bool.false_ne_true), if_pos h2]
  · intro h1 h2 h3
    rw [if_neg (by rw [h1]; exact Bool.false_ne_true),
        if_neg (by rw [h2]; exact Bool.false_ne_true), if_pos h3]
  · intro h1 h2 h3 h4
    rw [if_neg (by rw [h1]; exact Bool.false_ne_true),
        if_neg (by rw [h2]; exact Bool.false_ne_true), if_neg h3, if_pos h4]
  · intro h1 h2 h3 h4
    rw [if_neg (by rw [h1]; exact Bool.false_ne_true),
        if_neg (by rw [h2]; exact Bool.false_ne_true), if_neg h3, if_neg h4]

theorem C2_recommendation_rule_precedence_witness :
    generate_recommendation ⟨0, 1, 50, 10, (1 : ℚ)/5, 20, some 10,
        some "power_factor_abnormal:0.2"⟩ = powerFactorRec ∧
    generate_recommendation ⟨0, 1, 50, 10, (19 : ℚ)/20, 20, some 10, none⟩
      = energySpikeRec ∧
    generate_recommendation ⟨0, 1, 50, 10, (19 : ℚ)/20, 20, none, none⟩
      = normalRec := by
  refine ⟨?_, ?_, ?_⟩
  · exact (C2_recommendation_rule_precedence _).1 (by rfl)
  · exact (C2_recommendation_rule_precedence _).2.1 (by rfl) (by rfl)
  · exact (C2_recommendation_rule_precedence _).2.2.2.2 (by rfl) (by rfl)
      (by norm_num) (by norm_num)

/-- A row with a stored prediction of exactly `0.0`, actual energy 50, and no
other trigger. -/
def c2Row : OptRow := ⟨0, 1, 50, 10, (19 : ℚ)/20, 20, some 0, none⟩

/-- C2 counterexample: this row satisfies the claim's energy-spike condition
`energy > 1.2 × predicted_energy` (50 > 0) and no earlier rule, yet the code's
`predicted_energy and …` guard treats the `0.0` prediction as falsy, so the
row receives the "normal" recommendation, not the energy-spike one. -/
theorem C2_counterexample_zero_prediction :
    anomalyTriggers c2Row.anomaly = false ∧
    specSpikeTriggers c2Row.predicted_energy c2Row.energy = true ∧
    generate_recommendation c2Row = normalRec ∧
    ¬ generate_recommendation c2Row = energySpikeRec := by
  refine ⟨rfl, by norm_num [specSpikeTriggers, c2Row], ?_, ?_⟩
  · rfl
  · intro h
    rw [show generate_recommendation c2Row = normalRec from rfl] at h
    simp [normalRec, energySpikeRec] at h

/-- One `INSERT … ON CONFLICT (timestamp, building_id) DO UPDATE SET …`
statement over a table keyed by (timestamp, building_id): a conflicting key
keeps its position and has every non-key column overwritten by the new row's
values; a fresh key is appended.  The three tables (`sensor_data`,
`predictions`, `recommendations`) differ only in the payload type `V`. -/
def upsert {V : Type} (t : List ((ℤ × ℤ) × V)) (k : ℤ × ℤ) (v : V) :
    List ((ℤ × ℤ) × V) :=
  if t.any (fun p => decide (p.1 = k)) then
    t.map (fun p => if p.1 = k then (k, v) else p)
  else t ++ [(k, v)]

/-- Model of `cur.executemany` of an upsert statement: one upsert per row, in order. -/
def upsertMany {V : Type} (t : List ((ℤ × ℤ) × V))
    (rows : List ((ℤ × ℤ) × V)) : List ((ℤ × ℤ) × V) :=
  rows.foldl (fun a r => upsert a r.1 r.2) t

def tableKeys {V : Type} (t : List ((ℤ × ℤ) × V)) : List (ℤ × ℤ) :=
  t.map (fun p => p.1)

def lookupKey {V : Type} (t : List ((ℤ × ℤ) × V)) (k : ℤ × ℤ) : Option V :=
  (t.find? (fun p => decide (p.1 = k))).map (fun p => p.2)

theorem upsert_conflict_find {V : Type} (k : ℤ × ℤ) (v : V) :
    ∀ t : List ((ℤ × ℤ) × V), t.any (fun p => decide (p.1 = k)) = true →
    (t.map (fun p => if p.1 = k then (k, v) else p)).find?
      (fun p => decide (p.1 = k)) = some (k, v) := by
  intro t
  induction t with
  | nil => intro h; simp at h
  | cons p rest ih =>
    intro hany
    by_cases hp : p.1 = k
    · simp [List.find?, hp]
    · have hrest : rest.any (fun p => decide (p.1 = k)) = true := by
        simpa [List.any_cons, hp] using hany
      simp only [List.map_cons, List.find?, if_neg hp]
      rw [show (decide (p.1 = k)) = false from by simp [hp]]
      exact ih hrest

theorem upsert_conflict_countP {V : Type} (k : ℤ × ℤ) (v : V)
    (t : List ((ℤ × ℤ) × V)) :
    (t.map (fun p => if p.1 = k then (k, v) else p)).countP
      (fun p => decide (p.1 = k)) = t.countP (fun p => decide (p.1 = k)) := by
  induction t with
  | nil => rfl
  | cons p rest ih =>
    by_cases hp : p.1 = k
    · simp [List.countP_cons, hp, ih]
    · simp [List.countP_cons, hp, ih]

theorem tableKeys_upsert_conflict {V : Type} (k : ℤ × ℤ) (v : V)
    (t : List ((ℤ × ℤ) × V)) (hany : t.any (fun p => decide (p.1 = k)) = true) :
    tableKeys (upsert t k v) = tableKeys t := by
  rw [upsert, if_pos hany]
  unfold tableKeys
  rw [List.map_map]
  apply List.map_congr_left
  intro p _
  by_cases h : p.1 = k
  · simp [h]
  · simp [h]

theorem tableKeys_upsert_fresh {V : Type} (k : ℤ × ℤ) (v : V)
    (t : List ((ℤ × ℤ) × V)) (hany : t.any (fun p => decide (p.1 = k)) = false) :
    tableKeys (upsert t k v) = tableKeys t ++ [k] := by
  rw [upsert, if_neg (by rw [hany]; exact Bool.false_ne_true)]
  simp [tableKeys]

theorem countP_le_one_of_nodup {V : Type} (k : ℤ × ℤ) :
    ∀ t : List ((ℤ × ℤ) × V), (tableKeys t).Nodup →
    t.countP (fun p => decide (p.1 = k)) ≤ 1 := by
  intro t
  induction t with
  | nil => intro _; simp
  | cons p rest ih =>
    intro hnd
    have hnd' : (tableKeys rest).Nodup := (List.nodup_cons.mp hnd).2
    have hnotin : p.1 ∉ tableKeys rest := (List.nodup_cons.mp hnd).1
    by_cases hp : p.1 = k
    · have hzero : rest.countP (fun q => decide (q.1 = k)) = 0 := by
        rw [List.countP_eq_zero]
        intro q hq
        simp only [decide_eq_true_eq]
        intro hqk
        exact hnotin (hp ▸ hqk ▸ List.mem_map_of_mem (fun r => r.1) hq)
      simp [List.countP_cons, hp, hzero]
    · simp only [List.countP_cons, decide_eq_true_eq, hp]
      simpa using ih hnd'

theorem countP_pos_of_any {V : Type} (k : ℤ × ℤ) (t : List ((ℤ × ℤ) × V))
    (hany : t.any (fun p => decide (p.1 = k)) = true) :
    1 ≤ t.countP (fun p => decide (p.1 = k)) := by
  rw [List.any_eq_true] at hany
  obtain ⟨p, hmem, hp⟩ := hany
  exact List.countP_pos_iff.mpr ⟨p, hmem, hp⟩

theorem nodup_tableKeys_upsert {V : Type} (k : ℤ × ℤ) (v : V)
    (t : List ((ℤ × ℤ) × V)) (hnd : (tableKeys t).Nodup) :
    (tableKeys (upsert t k v)).Nodup := by
  cases hany : t.any (fun p => decide (p.1 = k)) with
  | true => rw [tableKeys_upsert_conflict k v t hany]; exact hnd
  | false =>
    rw [tableKeys_upsert_fresh k v t hany]
    have hk : k ∉ tableKeys t := by
      intro hin
      obtain ⟨p, hmem, hp⟩ := List.mem_map.mp hin
      rw [List.any_eq_false] at hany
      exact absurd (by simpa using hp) (by simpa using hany p hmem)
    simp [List.nodup_append, hnd, hk]

theorem mem_tableKeys_upsert {V : Type} (k : ℤ × ℤ) (v : V)
    (t : List ((ℤ × ℤ) × V)) (k' : ℤ × ℤ) (hin : k' ∈ tableKeys t) :
    k' ∈ tableKeys (upsert t k v) := by
  cases hany : t.any (fun p => decide (p.1 = k)) with
  | true => rw [tableKeys_upsert_conflict k v t hany]; exact hin
  | false =>
    rw [tableKeys_upsert_fresh k v t hany]
    exact List.mem_append_left _ hin

theorem mem_tableKeys_upsertMany {V : Type} (k' : ℤ × ℤ) :
    ∀ (rows t : List ((ℤ × ℤ) × V)), k' ∈ tableKeys t →
    k' ∈ tableKeys (upsertMany t rows) := by
  intro rows
  induction rows with
  | nil => intro t h; exact h
  | cons r rest ih =>
    intro t h
    exact ih _ (mem_tableKeys_upsert r.1 r.2 t k' h)

theorem any_upsert_self {V : Type} (k : ℤ × ℤ) (v : V)
    (t : List ((ℤ × ℤ) × V)) :
    (upsert t k v).any (fun p => decide (p.1 = k)) = true := by
  cases hany : t.any (fun p => decide (p.1 = k)) with
  | true =>
    rw [upsert, if_pos hany]
    rw [List.any_eq_true] at hany ⊢
    obtain ⟨p, hmem, hp⟩ := hany
    refine ⟨(k, v), List.mem_map.mpr ⟨p, hmem, ?_⟩, by simp⟩
    simp only [decide_eq_true_eq] at hp
    rw [if_pos hp]
  | false =>
    rw [upsert, if_neg (by rw [hany]; exact Bool.false_ne_true)]
    rw [List.any_eq_true]
    exact ⟨(k, v), List.mem_append_right _ (by simp), by simp⟩

theorem lookupKey_upsert_self {V : Type} (k : ℤ × ℤ) (v : V)
    (t : List ((ℤ × ℤ) × V)) : lookupKey (upsert t k v) k = some v := by
  cases hany : t.any (fun p => decide (p.1 = k)) with
  | true =>
    rw [upsert, if_pos hany, lookupKey, upsert_conflict_find k v t hany]
    rfl
  | false =>
    rw [upsert, if_neg (by rw [hany]; exact Bool.false_ne_true), lookupKey]
    have : (t ++ [(k, v)]).find? (fun p => decide (p.1 = k)) = some (k, v) := by
      induction t with
      | nil => simp [List.find?]
      | cons p rest ih =>
        have hp : ¬ p.1 = k := by
          rw [List.any_eq_false] at hany
          simpa using hany p (by simp)
        have hrest : rest.any (fun q => decide (q.1 = k)) = false := by
          rw [List.any_eq_false] at hany ⊢
          intro q hq
          exact hany q (by simp [hq])
        simp only [List.cons_append, List.find?]
        rw [show (decide (p.1 = k)) = false from by simp [hp]]
        exact ih hrest
    rw [this]
    rfl

theorem countP_upsert_one {V : Type} (k : ℤ × ℤ) (v : V)
    (t : List ((ℤ × ℤ) × V)) (hnd : (tableKeys t).Nodup) :
    (upsert t k v).countP (fun p => decide (p.1 = k)) = 1 := by
  cases hany : t.any (fun p => decide (p.1 = k)) with
  | true =>
    rw [upsert, if_pos hany, upsert_conflict_countP]
    have h1 := countP_le_one_of_nodup k t hnd
    have h2 := countP_pos_of_any k t hany
    omega
  | false =>
    rw [upsert, if_neg (by rw [hany]; exact Bool.false_ne_true)]
    rw [List.countP_append]
    have hzero : t.countP (fun p => decide (p.1 = k)) = 0 := by
      rw [List.countP_eq_zero]
      rw [List.any_eq_false] at hany
      exact hany
    simp [hzero]

/-- C7: upsert is last-write-wins for every table (the three tables share the
same payload-generic `INSERT … ON CONFLICT DO UPDATE` shape, abstracted by
`V`): writing a row for a (timestamp, building_id) key that already exists
replaces every non-key column with the second write's values and leaves
exactly one row for that key; the primary-key invariant is preserved; and the
batched upserts — the only write operation any pipeline handler issues —
never remove an existing key. -/
theorem C7_upsert_last_write_wins {V : Type} (t : List ((ℤ × ℤ) × V))
    (k : ℤ × ℤ) (v1 v2 : V) (rows : List ((ℤ × ℤ) × V))
    (hnd : (tableKeys t).Nodup) :
    lookupKey (upsert (upsert t k v1) k v2) k = some v2 ∧
    (upsert (upsert t k v1) k v2).countP (fun p => decide (p.1 = k)) = 1 ∧
    (tableKeys (upsert (upsert t k v1) k v2)).Nodup ∧
    (∀ k' ∈ tableKeys t, k' ∈ tableKeys (upsertMany t rows)) := by
  refine ⟨lookupKey_upsert_self k v2 _,
    countP_upsert_one k v2 _ (nodup_tableKeys_upsert k v1 t hnd),
    nodup_tableKeys_upsert k v2 _ (nodup_tableKeys_upsert k v1 t hnd),
    fun k' h => mem_tableKeys_upsertMany k' rows t h⟩

theorem C7_upsert_last_write_wins_witness :
    (tableKeys [(((0 : ℤ), (1 : ℤ)), (5 : ℕ))]).Nodup ∧
    lookupKey (upsert (upsert [(((0 : ℤ), (1 : ℤ)), (5 : ℕ))] (0, 1) 7) (0, 1) 9)
      (0, 1) = some 9 ∧
    (upsert (upsert [(((0 : ℤ), (1 : ℤ)), (5 : ℕ))] (0, 1) 7) (0, 1) 9).countP
      (fun p => decide (p.1 = (0, 1))) = 1 ∧
    ((0 : ℤ), (1 : ℤ)) ∈
      tableKeys (upsertMany [(((0 : ℤ), (1 : ℤ)), (5 : ℕ))] [((2, 3), 4)]) := by
  have h := C7_upsert_last_write_wins [(((0 : ℤ), (1 : ℤ)), (5 : ℕ))] (0, 1) 7 9
    [((2, 3), 4)] (by simp [tableKeys])
  exact ⟨by simp [tableKeys], h.1, h.2.1, h.2.2.2 _ (by simp [tableKeys])⟩

/-- Table `DEFAULT_VALUES` of `TriggerPrediction/__init__.py` lines 14-23. -/
def defaultValue : String → ℚ
  | "temperature" => 25
  | "humidity" => 50
  | "occupancy" => 0
  | "energy" => 0
  | "current" => 5
  | "voltage" => 220
  | "power_factor" => (19 : ℚ) / 20
  | "power" => 0
  | _ => 0

/-- Table `DYNAMIC_FEATURE_KEYS` of lines 25-34. -/
def DYNAMIC_FEATURE_KEYS : List String :=
  ["temperature", "humidity", "occupancy", "energy",
   "current", "voltage", "power_factor", "power"]

/-- Function `build_dynamic_series` (lines 56-66) at one key: a caller-supplied list is
truncated to `numTimesteps` and padded with the key's default; anything else
yields the all-default series. -/
def build_dynamic_series_at (flattenedInput : List (String × JVal)) (n : ℕ)
    (key : String) : List JVal :=
  match objLookup flattenedInput key with
  | some (JVal.jarr values) =>
    values.take n ++ List.replicate (n - values.length) (JVal.jnum (defaultValue key))
  | _ => List.replicate n (JVal.jnum (defaultValue key))

/-- Python `needle in x` for the request body: dict-key membership, list
membership, substring test; `none` models the `TypeError` on other types. -/
def pyInStr (needle : String) : JVal → Option Bool
  | JVal.jobj kvs => some (objHasKey kvs needle)
  | JVal.jarr l =>
    some (l.any (fun v => match v with | JVal.jstr s => s == needle | _ => false))
  | JVal.jstr s => some (pyContains s.data needle.data)
  | _ => none

/-- Model of `any(k in req_body for k in DYNAMIC_FEATURE_KEYS)` with Python's
short-circuiting; `none` propagates a raised membership test. -/
def anyKeyIn (keys : List String) (b : JVal) : Option Bool :=
  match keys with
  | [] => some false
  | k :: rest =>
    match pyInStr k b with
    | none => none
    | some true => some true
    | some false => anyKeyIn rest b

/-- Lengths of the list-valued entries of the body
(line 90's generator `len(v) for v in req_body.values() if isinstance(v, list)`). -/
def listLens (kvs : List (String × JVal)) : List ℕ :=
  kvs.filterMap (fun p => match p.2 with | JVal.jarr l => some l.length | _ => none)

/-- Model of `max(...)` over those lengths; `none` is the `ValueError` on an empty
sequence. -/
def numTimestepsOf (kvs : List (String × JVal)) : Option ℕ :=
  match listLens kvs with
  | [] => none
  | x :: xs => some (xs.foldl max x)

/-- The `target` series `[50 + i * 0.5 for i in range(n)]` (lines 97/117). -/
def targetSeries (n : ℕ) : List JVal :=
  (List.range n).map (fun i => JVal.jnum (50 + (i : ℚ) * ((1 : ℚ) / 2)))

/-- The synthetic inference record (lines 94-103 and 114-123); `now` models
`datetime.utcnow()` as epoch seconds. -/
def syntheticRecord (now : ℤ) (n : ℕ) (series : String → List JVal) : JVal :=
  JVal.jobj
    [("datetime",
      JVal.jstr (String.mk (isoformatSec (now - 3600 * (n : ℤ)) ++ ['Z']))),
     ("target", JVal.jarr (targetSeries n)),
     ("feat_dynamic_real",
      JVal.jarr (DYNAMIC_FEATURE_KEYS.map (fun k => JVal.jarr (series k)))),
     ("feat_static_cat", JVal.jarr [JVal.jnum 0]),
     ("feat_static_real", JVal.jarr [JVal.jnum 1000]),
     ("item_id", JVal.jstr "meter_001")]

def syntheticPayload (now : ℤ) (n : ℕ) (series : String → List JVal) : JVal :=
  JVal.jobj [("data", JVal.jarr [syntheticRecord now n series])]

/-- The request-building phase of `TriggerPrediction.main` (lines 78-123):
pass a body with a `"data"` key through unchanged; build the flattened-input
synthetic series when a dynamic feature key is present; fall back to default
test data otherwise.  `none` models an exception raised inside the `try`
before any network call (e.g. `max()` on an empty sequence). -/
def prepareData (body : Option JVal) (now : ℤ) : Option JVal :=
  match body with
  | none =>
    some (syntheticPayload now 5 (fun k => List.replicate 5 (JVal.jnum (defaultValue k))))
  | some b =>
    match (if pyTruthy b then pyInStr "data" b else some false) with
    | none => none
    | some true => some b
    | some false =>
      match (if pyTruthy b then anyKeyIn DYNAMIC_FEATURE_KEYS b else some false) with
      | none => none
      | some true =>
        match b with
        | JVal.jobj kvs =>
          match numTimestepsOf kvs with
          | none => none
          | some n => some (syntheticPayload now n (build_dynamic_series_at kvs n))
        | _ => none
      | some false =>
        some (syntheticPayload now 5
          (fun k => List.replicate 5 (JVal.jnum (defaultValue k))))

/-- Lines 137-139: `json.loads(response.text)` plus one extra decode pass when
the decoded value is itself a string. -/
def parsePredictions (text : String) : Option JVal :=
  match json_loads text with
  | none => none
  | some (JVal.jstr s) => json_loads s
  | some v => some v

/-- Python `x.get(k, default)`: only dicts have `.get`; `none` models the
`AttributeError` on any other value. -/
def pyGetAttrD (v : JVal) (k : String) (dflt : JVal) : Option JVal :=
  match v with
  | JVal.jobj kvs => some (objGetD kvs k dflt)
  | _ => none

/-- Lines 137-144: decode the response (with the one extra unwrap) and read
the four fields with `[]` defaults. -/
def extractPredictionFields (text : String) : Option (JVal × JVal × JVal × JVal) :=
  match parsePredictions text with
  | none => none
  | some p =>
    match pyGetAttrD p "forecast" (JVal.jarr []),
          pyGetAttrD p "recommendations" (JVal.jarr []),
          pyGetAttrD p "anomalies" (JVal.jarr []),
          pyGetAttrD p "postgres_ready" (JVal.jarr []) with
    | some f, some r, some a, some pr => some (f, r, a, pr)
    | _, _, _, _ => none

/-- Whether the decoded response has the only shape the reconciler stores
from: a dict (after at most one unwrap) whose `forecast` entry is truthy. -/
def responseShapeAccepted (text : String) : Bool :=
  match parsePredictions text with
  | some (JVal.jobj kvs) => pyTruthy (objGetD kvs "forecast" (JVal.jarr []))
  | _ => false

/-- Line 199: `forecast[0][i] if isinstance(forecast[0], list) else forecast[i]`. -/
def predAt (forecast : JVal) (i : ℕ) : Option JVal :=
  match pyIndexNat forecast 0 with
  | none => none
  | some (JVal.jarr inner) => inner.get? i
  | some _ => pyIndexNat forecast i

/-- The claim's description of the stored value: the forecast value at index
`i`, unwrapping one list level when the forecast's first element is itself a
list. -/
def specForecastAt (forecast : List JVal) (i : ℕ) : Option JVal :=
  match forecast with
  | JVal.jarr inner :: _ => inner.get? i
  | l => l.get? i

/-- Python iteration over a value: list elements, string characters, dict
keys; `none` models the `TypeError` on non-iterables. -/
def pyIterate : JVal → Option (List JVal)
  | JVal.jarr l => some l
  | JVal.jstr s => some (s.data.map (fun c => JVal.jstr (String.mk [c])))
  | JVal.jobj kvs => some (kvs.map (fun p => JVal.jstr p.1))
  | _ => none

/-- Line 202's try: `[f[i] for f in dynamic_data]`, which must then unpack
into exactly eight names. -/
def featAttempt (dynV : JVal) (i : ℕ) : Option (List JVal) :=
  match pyIterate dynV with
  | none => none
  | some l =>
    match l.mapM (fun f => pyIndexNat f i) with
    | none => none
    | some vs => if vs.length = 8 then some vs else none

/-- Lines 205-207's fallback: `f[i] if i < len(f) else DEFAULT_VALUES[key]`
zipped against the feature keys, unpacked into eight names; its own failure
is uncaught. -/
def featFallback (dynV : JVal) (i : ℕ) : Option (List JVal) :=
  match pyIterate dynV with
  | none => none
  | some l =>
    match (l.zip DYNAMIC_FEATURE_KEYS).mapM (fun p =>
        match pyLen p.1 with
        | none => none
        | some n =>
          if i < n then pyIndexNat p.1 i else some (JVal.jnum (defaultValue p.2))) with
    | none => none
    | some vs => if vs.length = 8 then some vs else none

def extractFeats (dynV : JVal) (i : ℕ) : Option (List JVal) :=
  match featAttempt dynV i with
  | some l => some l
  | none => featFallback dynV i

def intRepr (z : ℤ) : String :=
  if z < 0 then "-" ++ String.mk (natDigits z.natAbs) else String.mk (natDigits z.natAbs)

/-- Simplified `str(x)` used only inside anomaly labels (numeric formatting is
abbreviated; only the tag before the colon is ever inspected downstream). -/
def pyRepr : JVal → String
  | JVal.jnull => "None"
  | JVal.jbool b => if b then "True" else "False"
  | JVal.jnum q =>
    if q.den = 1 then intRepr q.num
    else intRepr q.num ++ "/" ++ String.mk (natDigits q.den)
  | JVal.jstr s => s
  | JVal.jarr _ => "[...]"
  | JVal.jobj _ => "dict"

/-- Python's chained `lo <= x <= hi` with short-circuiting; `none` models the
`TypeError` of comparing a non-number. -/
def chainedLe (lo : ℚ) (x : JVal) (hi : ℚ) : Option Bool :=
  match pyNumVal x with
  | none => none
  | some q => if lo ≤ q then some (decide (q ≤ hi)) else some false

/-- Lines 209-213: the anomaly label for one timestep. -/
def anomalyFor (temp pf : JVal) : Option (Option String) :=
  match chainedLe 10 temp 40 with
  | none => none
  | some tempOk =>
    if ¬ tempOk then some (some ("temperature_out_of_range:" ++ pyRepr temp))
    else
      match chainedLe ((2 : ℚ) / 5) pf 1 with
      | none => none
      | some pfOk =>
        if ¬ pfOk then some (some ("power_factor_abnormal:" ++ pyRepr pf))
        else some none

/-- One row of `predictions_bulk` (line 215). -/
structure PredRow where
  ts : ℤ
  building_id : JVal
  predicted_energy : JVal
  anomaly : Option String

/-- One row of `sensor_data_bulk` (line 216). -/
structure SensorOut where
  ts : ℤ
  building_id : JVal
  temperature : JVal
  humidity : JVal
  occupancy : ℤ
  energy : JVal
  current : JVal
  voltage : JVal
  power_factor : JVal
  power : JVal

/-- One row of `recommendations_bulk` (lines 220-233); `json.dumps` of the
recommendation is modelled by carrying the value itself. -/
structure RecRow where
  ts : ℤ
  building_id : JVal
  predicted_energy : JVal
  recommendation : JVal

/-- One iteration of the per-timestep loop of lines 198-216. -/
def bulkStep (forecast dynV bid : JVal) (start : ℤ) (i : ℕ) :
    Option (PredRow × SensorOut) :=
  match predAt forecast i with
  | none => none
  | some pred =>
    match extractFeats dynV i with
    | none => none
    | some feats =>
      match feats with
      | [temp, hum, occJ, energy, cur, volt, pf, pw] =>
        match anomalyFor temp pf with
        | none => none
        | some anom =>
          match pyInt occJ with
          | none => none
          | some occ =>
            some ((⟨start + 3600 * (i : ℤ), bid, pred, anom⟩ : PredRow),
                  (⟨start + 3600 * (i : ℤ), bid, temp, hum, occ, energy,
                    cur, volt, pf, pw⟩ : SensorOut))
      | _ => none

/-- The per-timestep loop of lines 198-216 building `predictions_bulk` and
`sensor_data_bulk`; any raised exception aborts the whole handler (`none`). -/
def buildMainBulks (forecast : JVal) (dynV : JVal) (bid : JVal) (start : ℤ)
    (n : ℕ) : Option (List PredRow × List SensorOut) :=
  match (List.range n).mapM (bulkStep forecast dynV bid start) with
  | none => none
  | some pairs => some (pairs.map Prod.fst, pairs.map Prod.snd)

/-- One structured recommendation of the `postgres_ready` branch
(lines 220-228). -/
def parsePostgresRec (rec : JVal) : Option RecRow :=
  match rec with
  | JVal.jobj kvs =>
    match objLookup kvs "timestamp" with
    | some (JVal.jstr tsS) =>
      match fromisoformatSec (sanitize_iso_timestamp tsS.data) with
      | none => none
      | some ts =>
        match objLookup kvs "building_id" with
        | none => none
        | some bidJ =>
          match pyInt bidJ with
          | none => none
          | some bid =>
            match objLookup kvs "predicted_energy" with
            | none => none
            | some peJ =>
              match pyFloat peJ with
              | none => none
              | some pe =>
                match objLookup kvs "recommendation" with
                | none => none
                | some rc =>
                  some ⟨ts, JVal.jnum (bid : ℚ), JVal.jnum pe, rc⟩
    | _ => none
  | _ => none

/-- Lines 218-233: `recommendations_bulk`, either from `postgres_ready` or
zipped against the derived timestamps. -/
def buildRecRows (postgres recs forecast : JVal) (bid : JVal) (start : ℤ)
    (n : ℕ) : Option (List RecRow) :=
  if pyTruthy postgres then
    match pyIterate postgres with
    | none => none
    | some l => l.mapM parsePostgresRec
  else
    (List.range n).mapM (fun i =>
      match predAt forecast i with
      | none => none
      | some pred =>
        match pyLen recs with
        | none => none
        | some m =>
          match (if i < m then pyIndexNat recs i else some (JVal.jobj [])) with
          | none => none
          | some rc => some (⟨start + 3600 * (i : ℤ), bid, pred, rc⟩ : RecRow))

/-- Lines 187-192: pull the record, building id, start timestamp, dynamic
features and target length out of the request payload. -/
def extractRecord (payload : JVal) : Option (JVal × ℤ × JVal × ℕ) :=
  match payload with
  | JVal.jobj kvs =>
    match objLookup kvs "data" with
    | none => none
    | some dataV =>
      match pyIndexNat dataV 0 with
      | none => none
      | some record =>
        match record with
        | JVal.jobj rkvs =>
          match pyIndexNat (objGetD rkvs "feat_static_cat" (JVal.jarr [JVal.jnum 0])) 0 with
          | none => none
          | some bidJ =>
            match objLookup rkvs "datetime" with
            | some (JVal.jstr dtS) =>
              match fromisoformatSec (sanitize_iso_timestamp dtS.data) with
              | none => none
              | some start =>
                match objLookup rkvs "feat_dynamic_real" with
                | none => none
                | some dynV =>
                  match objLookup rkvs "target" with
                  | none => none
                  | some targetV =>
                    match pyLen targetV with
                    | none => none
                    | some n => some (bidJ, start, dynV, n)
            | _ => none
        | _ => none
  | _ => none

/-- The outcome of `requests.post` toward the inference endpoint. -/
inductive RemoteBehavior where
  | timeout : RemoteBehavior
  | connError : RemoteBehavior
  | httpResponse (statusCode : ℕ) (text : String) : RemoteBehavior

/-- The observable outcome of one `TriggerPrediction.main` invocation:
response status and body, whether the HTTP request was issued, whether a
database connection was opened, and the three bulks committed (none when the
invocation errored before the commit). -/
structure TPResult where
  status : ℕ
  body : String
  httpIssued : Bool
  dbOpened : Bool
  stored : Option (List PredRow × List SensorOut × List RecRow)

def envTruthy : Option String → Bool
  | none => false
  | some s => !(s == "")

/-- Lines 137-268: everything `TriggerPrediction.main` does once a non-error
HTTP response arrived — decode and reconcile the response, check the
forecast, open the database, build the three bulks and commit.  `none`-valued
steps hit the catch-all `except` (status 500, nothing stored). -/
def handleResponse (payload : JVal) (text : String) : TPResult :=
  match extractPredictionFields text with
  | none => ⟨500, "Error: <exception>", true, false, none⟩
  | some (forecast, recs, _anoms, postgres) =>
    if ¬ pyTruthy forecast = true then
      ⟨500, "No forecast returned", true, false, none⟩
    else
      match extractRecord payload with
      | none => ⟨500, "Error: <exception>", true, true, none⟩
      | some (bidJ, start, dynV, n) =>
        match buildMainBulks forecast dynV bidJ start n with
        | none => ⟨500, "Error: <exception>", true, true, none⟩
        | some (pb, sb) =>
          match buildRecRows postgres recs forecast bidJ start n with
          | none => ⟨500, "Error: <exception>", true, true, none⟩
          | some rb => ⟨200, "", true, true, some (pb, sb, rb)⟩

/-- Model of `TriggerPrediction.main` (lines 68-283).  `now` models
`datetime.utcnow()`, `remote` the outcome of the POST; exception texts other
than the two explicit messages are abbreviated to `"Error: <exception>"`. -/
def triggerPredictionMain (endpointUrl apiKey dbUrl : Option String)
    (body : Option JVal) (now : ℤ) (remote : RemoteBehavior) : TPResult :=
  if ¬ (envTruthy endpointUrl && envTruthy apiKey && envTruthy dbUrl) = true then
    ⟨500, "Missing environment variables", false, false, none⟩
  else
    match prepareData body now with
    | none => ⟨500, "Error: <exception>", false, false, none⟩
    | some payload =>
      match remote with
      | RemoteBehavior.timeout => ⟨500, "Error: <exception>", true, false, none⟩
      | RemoteBehavior.connError => ⟨500, "Error: <exception>", true, false, none⟩
      | RemoteBehavior.httpResponse code text =>
        if 400 ≤ code then ⟨500, "Error: <exception>", true, false, none⟩
        else handleResponse payload text

/-- C5: if any of ENDPOINT_URL, API_KEY or DATABASE_URL is unset,
`TriggerPrediction.main` returns the configuration-error response before
performing any network call: no HTTP request is issued and no database
connection is opened. -/
theorem C5_missing_env_short_circuits (endpointUrl apiKey dbUrl : Option String)
    (body : Option JVal) (now : ℤ) (remote : RemoteBehavior)
    (h : endpointUrl = none ∨ apiKey = none ∨ dbUrl = none) :
    triggerPredictionMain endpointUrl apiKey dbUrl body now remote =
      ⟨500, "Missing environment variables", false, false, none⟩ := by
  have henv : (envTruthy endpointUrl && envTruthy apiKey && envTruthy dbUrl) = false := by
    rcases h with rfl | rfl | rfl <;> simp [envTruthy]
  have hc : ¬ (envTruthy endpointUrl && envTruthy apiKey && envTruthy dbUrl) = true := by
    rw [henv]
    exact Bool.false_ne_true
  unfold triggerPredictionMain
  rw [if_pos hc]

theorem C5_missing_env_short_circuits_witness :
    triggerPredictionMain none (some "k") (some "d") none 0 RemoteBehavior.timeout =
      ⟨500, "Missing environment variables", false, false, none⟩ :=
  C5_missing_env_short_circuits none (some "k") (some "d") none 0
    RemoteBehavior.timeout (Or.inl rfl)

/-- When the configuration is present and the request body prepared, the
handler's outcome is the POST outcome followed by `handleResponse`. -/
theorem triggerMain_ok_reduces (e a d : String) (he : ¬ e = "") (ha : ¬ a = "")
    (hd : ¬ d = "") (body : Option JVal) (now : ℤ) (payload : JVal)
    (hprep : prepareData body now = some payload) (code : ℕ) (text : String)
    (hcode : code < 400) :
    triggerPredictionMain (some e) (some a) (some d) body now
      (RemoteBehavior.httpResponse code text) = handleResponse payload text := by
  have hc : (envTruthy (some e) && envTruthy (some a) && envTruthy (some d)) = true := by
    simp [envTruthy, he, ha, hd]
  unfold triggerPredictionMain
  rw [if_neg (not_not_intro hc), hprep]
  dsimp only
  rw [if_neg (by omega)]

/-- Whether the POST outcome is an upstream failure: a timeout, a connection
failure, or an HTTP error status. -/
def remoteFailure : RemoteBehavior → Prop
  | RemoteBehavior.timeout => True
  | RemoteBehavior.connError => True
  | RemoteBehavior.httpResponse code _ => 400 ≤ code

/-- C8 (amended): upstream HTTP failures are not classified into distinct
user-facing status codes: the single catch-all `except` maps every failure
kind — timeout, connection failure, HTTP error status — to the same 500
response carrying the exception text, with nothing stored. -/
theorem C8_uniform_failure_status (e a d : String) (he : ¬ e = "")
    (ha : ¬ a = "") (hd : ¬ d = "") (body : Option JVal) (now : ℤ)
    (payload : JVal) (hprep : prepareData body now = some payload)
    (remote : RemoteBehavior) (hfail : remoteFailure remote) :
    triggerPredictionMain (some e) (some a) (some d) body now remote =
      ⟨500, "Error: <exception>", true, false, none⟩ := by
  have hc : (envTruthy (some e) && envTruthy (some a) && envTruthy (some d)) = true := by
    simp [envTruthy, he, ha, hd]
  unfold triggerPredictionMain
  rw [if_neg (not_not_intro hc), hprep]
  cases remote with
  | timeout => rfl
  | connError => rfl
  | httpResponse code text =>
    unfold remoteFailure at hfail
    dsimp only
    rw [if_pos hfail]

theorem C8_uniform_failure_status_witness :
    triggerPredictionMain (some "u") (some "k") (some "d") none 0
      RemoteBehavior.timeout = ⟨500, "Error: <exception>", true, false, none⟩ :=
  C8_uniform_failure_status "u" "k" "d" (by decide) (by decide) (by decide)
    none 0 _ rfl RemoteBehavior.timeout trivial

/-- C8 counterexample: a timeout, a connection failure and an HTTP 503 all
produce the same user-facing status code 500 — no two failure kinds are
distinguished, refuting "different failure kinds yield different response
status codes". -/
theorem C8_counterexample_same_status :
    (triggerPredictionMain (some "u") (some "k") (some "d") none 0
      RemoteBehavior.timeout).status = 500 ∧
    (triggerPredictionMain (some "u") (some "k") (some "d") none 0
      RemoteBehavior.connError).status = 500 ∧
    (triggerPredictionMain (some "u") (some "k") (some "d") none 0
      (RemoteBehavior.httpResponse 503 "err")).status = 500 ∧
    (triggerPredictionMain (some "u") (some "k") (some "d") none 0
      RemoteBehavior.timeout).status =
      (triggerPredictionMain (some "u") (some "k") (some "d") none 0
        RemoteBehavior.connError).status := by
  exact ⟨rfl, rfl, rfl, rfl⟩

/-- C4 (amended): the reconciler stores data only from responses that decode
(with at most one extra unwrap) to an object whose `forecast` entry is
truthy; every other response shape — bare arrays, objects carrying only a
`predictions` key (the `forecast` read falls back to `[]`), strings, numbers,
and objects with an empty forecast — terminates that invocation with a 500
error response before a database connection is opened, storing nothing. -/
theorem C4_unaccepted_shape_is_error (e a d : String) (he : ¬ e = "")
    (ha : ¬ a = "") (hd : ¬ d = "") (body : Option JVal) (now : ℤ)
    (payload : JVal) (hprep : prepareData body now = some payload)
    (code : ℕ) (text : String) (hcode : code < 400) :
    (responseShapeAccepted text = false →
      (triggerPredictionMain (some e) (some a) (some d) body now
        (RemoteBehavior.httpResponse code text)).status = 500 ∧
      (triggerPredictionMain (some e) (some a) (some d) body now
        (RemoteBehavior.httpResponse code text)).stored = none ∧
      (triggerPredictionMain (some e) (some a) (some d) body now
        (RemoteBehavior.httpResponse code text)).dbOpened = false) ∧
    ((triggerPredictionMain (some e) (some a) (some d) body now
        (RemoteBehavior.httpResponse code text)).stored ≠ none →
      responseShapeAccepted text = true) := by
  rw [triggerMain_ok_reduces e a d he ha hd body now payload hprep code text hcode]
  have hmain : responseShapeAccepted text = false →
      (handleResponse payload text).status = 500 ∧
      (handleResponse payload text).stored = none ∧
      (handleResponse payload text).dbOpened = false := by
    intro hshape
    unfold handleResponse
    unfold responseShapeAccepted at hshape
    cases hp : parsePredictions text with
    | none =>
      unfold extractPredictionFields
      rw [hp]
      exact ⟨rfl, rfl, rfl⟩
    | some p =>
      rw [hp] at hshape
      cases p with
      | jobj kvs =>
        have hext : extractPredictionFields text =
            some (objGetD kvs "forecast" (JVal.jarr []),
                  objGetD kvs "recommendations" (JVal.jarr []),
                  objGetD kvs "anomalies" (JVal.jarr []),
                  objGetD kvs "postgres_ready" (JVal.jarr [])) := by
          unfold extractPredictionFields
          rw [hp]
          rfl
        dsimp only at hshape
        rw [hext]
        dsimp only
        rw [if_pos (by rw [hshape]; exact Bool.false_ne_true)]
        exact ⟨rfl, rfl, rfl⟩
      | jnull =>
        unfold extractPredictionFields
        rw [hp]
        exact ⟨rfl, rfl, rfl⟩
      | jbool b =>
        unfold extractPredictionFields
        rw [hp]
        exact ⟨rfl, rfl, rfl⟩
      | jnum q =>
        unfold extractPredictionFields
        rw [hp]
        exact ⟨rfl, rfl, rfl⟩
      | jstr s =>
        unfold extractPredictionFields
        rw [hp]
        exact ⟨rfl, rfl, rfl⟩
      | jarr l =>
        unfold extractPredictionFields
        rw [hp]
        exact ⟨rfl, rfl, rfl⟩
  refine ⟨hmain, ?_⟩
  intro hstored
  cases hshape : responseShapeAccepted text with
  | true => rfl
  | false => exact absurd (hmain hshape).2.1 hstored

theorem C4_unaccepted_shape_is_error_witness :
    (triggerPredictionMain (some "u") (some "k") (some "d") none 0
      (RemoteBehavior.httpResponse 200 "[1.0, 2.0]")).status = 500 ∧
    (triggerPredictionMain (some "u") (some "k") (some "d") none 0
      (RemoteBehavior.httpResponse 200 "[1.0, 2.0]")).stored = none := by
  have h := (C4_unaccepted_shape_is_error "u" "k" "d" (by decide) (by decide)
    (by decide) none 0 _ rfl 200 "[1.0, 2.0]" (by omega)).1 rfl
  exact ⟨h.1, h.2.1⟩

/-- C4 counterexample: a bare-array response and an object offering only a
`predictions` key are not accepted — both terminate with a 500 and store
nothing — refuting the claim that the reconciler accepts an object with a
`predictions` key or a bare array. -/
theorem C4_counterexample_rejected_shapes :
    responseShapeAccepted "[1.0, 2.0]" = false ∧
    (triggerPredictionMain (some "u") (some "k") (some "d") none 0
      (RemoteBehavior.httpResponse 200 "[1.0, 2.0]")).status = 500 ∧
    (triggerPredictionMain (some "u") (some "k") (some "d") none 0
      (RemoteBehavior.httpResponse 200 "[1.0, 2.0]")).stored = none ∧
    responseShapeAccepted "\x7b\"predictions\": [1.0, 2.0]\x7d" = false ∧
    (triggerPredictionMain (some "u") (some "k") (some "d") none 0
      (RemoteBehavior.httpResponse 200
        "\x7b\"predictions\": [1.0, 2.0]\x7d")).status = 500 ∧
    (triggerPredictionMain (some "u") (some "k") (some "d") none 0
      (RemoteBehavior.httpResponse 200
        "\x7b\"predictions\": [1.0, 2.0]\x7d")).stored = none := by
  exact ⟨rfl, rfl, rfl, rfl, rfl, rfl⟩

/-- C3 (amended): for every response body that is a JSON string whose content
is itself JSON and decodes to a non-string value, the reconciler unwraps
exactly one extra decoding layer and extracts the same
forecast/recommendations/anomalies/postgres_ready fields as it does from the
equivalent single-encoded response. -/
theorem C3_double_encoded_equivalence (t s t2 : String) (v : JVal)
    (h1 : json_loads t = some (JVal.jstr s))
    (h2 : json_loads s = some v)
    (hv : ∀ w, ¬ v = JVal.jstr w)
    (h3 : json_loads t2 = some v) :
    parsePredictions t = some v ∧
    parsePredictions t2 = some v ∧
    extractPredictionFields t = extractPredictionFields t2 := by
  have hp1 : parsePredictions t = some v := by
    unfold parsePredictions
    rw [h1]
    exact h2
  have hp2 : parsePredictions t2 = some v := by
    unfold parsePredictions
    rw [h3]
    cases v with
    | jstr w => exact absurd rfl (hv w)
    | jnull => rfl
    | jbool b => rfl
    | jnum q => rfl
    | jarr l => rfl
    | jobj kvs => rfl
  refine ⟨hp1, hp2, ?_⟩
  unfold extractPredictionFields
  rw [hp1, hp2]

theorem C3_double_encoded_equivalence_witness :
    extractPredictionFields "\"\x7b\\\"forecast\\\": [2.5]\x7d\"" =
      extractPredictionFields "\x7b\"forecast\": [2.5]\x7d" :=
  (C3_double_encoded_equivalence "\"\x7b\\\"forecast\\\": [2.5]\x7d\""
    "\x7b\"forecast\": [2.5]\x7d" "\x7b\"forecast\": [2.5]\x7d"
    (JVal.jobj [("forecast", JVal.jarr [JVal.jnum ((5 : ℚ) / 2)])])
    (by rfl) (by rfl) (fun w h => JVal.noConfusion h) (by rfl)).2.2

/-- A response body whose JSON content is itself a JSON string: decoding it
yields the string `c3S`. -/
def c3T : String := "\"\\\"\x7b\\\\\\\"forecast\\\\\\\": [1]\x7d\\\"\""

/-- The equivalent single-encoded body: one decode of `c3T`'s content. -/
def c3S : String := "\"\x7b\\\"forecast\\\": [1]\x7d\""

/-- C3 counterexample: `c3T` is double-encoded (its decode is the string
`c3S`, which is itself JSON), yet the handler extracts nothing from it —
after its single extra unwrap the value is still a string and `.get` raises —
while the equivalent single-encoded response `c3S` yields the forecast
`[1]`.  The claim fails when the doubly-decoded content is itself a JSON
string. -/
theorem C3_counterexample_inner_string :
    json_loads c3T = some (JVal.jstr c3S) ∧
    json_loads c3S = some (JVal.jstr "\x7b\"forecast\": [1]\x7d") ∧
    extractPredictionFields c3T = none ∧
    extractPredictionFields c3S =
      some (JVal.jarr [JVal.jnum 1], JVal.jarr [], JVal.jarr [], JVal.jarr []) := by
  exact ⟨rfl, rfl, rfl, rfl⟩

theorem build_dynamic_series_at_length (kvs : List (String × JVal)) (n : ℕ)
    (key : String) : (build_dynamic_series_at kvs n key).length = n := by
  unfold build_dynamic_series_at
  cases h : objLookup kvs key with
  | none => simp
  | some v =>
    cases v with
    | jarr values =>
      simp only [List.length_append, List.length_take, List.length_replicate]
      omega
    | jnull => simp
    | jbool b => simp
    | jnum q => simp
    | jstr s => simp
    | jobj o => simp

/-- C9 (amended): a request body containing a `"data"` key is forwarded to
the inference endpoint unchanged; a truthy dict body without `"data"` but
with a dynamic feature key and at least one list value yields the synthetic
input series in which every one of the eight feature lists has exactly
`num_timesteps` entries (caller lists truncated to that length or padded with
the per-feature default), `num_timesteps` being the maximum list length among
the body's values. -/
theorem C9_request_builder (b : JVal) (now : ℤ) :
    (pyTruthy b = true → pyInStr "data" b = some true →
      prepareData (some b) now = some b) ∧
    (∀ kvs n, b = JVal.jobj kvs → pyTruthy b = true →
      objHasKey kvs "data" = false →
      anyKeyIn DYNAMIC_FEATURE_KEYS b = some true →
      numTimestepsOf kvs = some n →
      prepareData (some b) now =
        some (syntheticPayload now n (build_dynamic_series_at kvs n)) ∧
      ∀ key, (build_dynamic_series_at kvs n key).length = n) := by
  constructor
  · intro htr hdata
    unfold prepareData
    dsimp only
    rw [if_pos htr, hdata]
  · rintro kvs n rfl htr hnodata hany hnum
    refine ⟨?_, fun key => build_dynamic_series_at_length kvs n key⟩
    unfold prepareData
    dsimp only
    rw [if_pos htr]
    have hdata : pyInStr "data" (JVal.jobj kvs) = some false := by
      unfold pyInStr
      dsimp only
      rw [hnodata]
    rw [hdata]
    dsimp only
    rw [if_pos htr, hany]
    dsimp only
    rw [hnum]

theorem C9_request_builder_witness :
    prepareData (some (JVal.jobj [("data", JVal.jarr [])])) 7 =
      some (JVal.jobj [("data", JVal.jarr [])]) ∧
    prepareData (some (JVal.jobj
        [("temperature", JVal.jarr [JVal.jnum 1, JVal.jnum 2, JVal.jnum 3]),
         ("humidity", JVal.jarr [JVal.jnum 4])])) 7 =
      some (syntheticPayload 7 3 (build_dynamic_series_at
        [("temperature", JVal.jarr [JVal.jnum 1, JVal.jnum 2, JVal.jnum 3]),
         ("humidity", JVal.jarr [JVal.jnum 4])] 3)) ∧
    (build_dynamic_series_at
        [("temperature", JVal.jarr [JVal.jnum 1, JVal.jnum 2, JVal.jnum 3]),
         ("humidity", JVal.jarr [JVal.jnum 4])] 3 "power").length = 3 := by
  refine ⟨?_, ?_, ?_⟩
  · exact (C9_request_builder (JVal.jobj [("data", JVal.jarr [])]) 7).1 rfl rfl
  · exact ((C9_request_builder _ 7).2 _ 3 rfl (by rfl) (by rfl) (by rfl) (by rfl)).1
  · exact ((C9_request_builder _ 7).2 _ 3 rfl (by rfl) (by rfl) (by rfl) (by rfl)).2 "power"

/-- A body carrying a dynamic feature key whose value is not a list. -/
def c9Body : JVal := JVal.jobj [("temperature", JVal.jnum 5)]

/-- C9 counterexample: this body contains the dynamic feature key
`temperature`, but no value is a list, so `max()` over the empty generator
raises and the invocation returns a 500 without ever building a synthetic
series (and without issuing the HTTP request) — refuting the claim that any
body with a dynamic feature key yields a synthetic input series. -/
theorem C9_counterexample_no_list_value :
    anyKeyIn DYNAMIC_FEATURE_KEYS c9Body = some true ∧
    prepareData (some c9Body) 0 = none ∧
    triggerPredictionMain (some "u") (some "k") (some "d") (some c9Body) 0
      (RemoteBehavior.httpResponse 200 "x") =
      ⟨500, "Error: <exception>", false, false, none⟩ := by
  exact ⟨rfl, rfl, rfl⟩

theorem optionMapM_spec {α β : Type} (f : α → Option β) :
    ∀ (l : List α) (res : List β), l.mapM f = some res →
    res.length = l.length ∧
    ∀ (i : ℕ) (a : α), l[i]? = some a → ∃ b, res[i]? = some b ∧ f a = some b := by
  intro l
  induction l with
  | nil =>
    intro res h
    rw [List.mapM_nil] at h
    obtain rfl : res = [] := by simpa using h.symm
    exact ⟨rfl, by intro i a ha; simp at ha⟩
  | cons x xs ih =>
    intro res h
    rw [List.mapM_cons] at h
    cases hf : f x with
    | none => rw [hf] at h; simp at h
    | some y =>
      rw [hf] at h
      cases hm : xs.mapM f with
      | none => rw [hm] at h; simp at h
      | some ys =>
        rw [hm] at h
        obtain rfl : res = y :: ys := by simpa using h.symm
        obtain ⟨hlen, hidx⟩ := ih ys hm
        refine ⟨by simp [hlen], ?_⟩
        intro i a ha
        cases i with
        | zero =>
          simp only [List.getElem?_cons_zero, Option.some.injEq] at ha ⊢
          exact ⟨y, rfl, ha ▸ hf⟩
        | succ i =>
          simp only [List.getElem?_cons_succ] at ha ⊢
          exact hidx i a ha

theorem predAt_jarr (l : List JVal) (i : ℕ) :
    predAt (JVal.jarr l) i = specForecastAt l i := by
  cases l with
  | nil => rfl
  | cons f0 rest => cases f0 <;> rfl

theorem bulkStep_spec (forecast dynV bid : JVal) (start : ℤ) (i : ℕ)
    (pair : PredRow × SensorOut)
    (h : bulkStep forecast dynV bid start i = some pair) :
    pair.1.ts = start + 3600 * (i : ℤ) ∧ pair.1.building_id = bid ∧
    predAt forecast i = some pair.1.predicted_energy := by
  unfold bulkStep at h
  cases hpred : predAt forecast i with
  | none => rw [hpred] at h; simp at h
  | some pred =>
    rw [hpred] at h
    dsimp only at h
    cases hfe : extractFeats dynV i with
    | none => rw [hfe] at h; simp at h
    | some feats =>
      rw [hfe] at h
      dsimp only at h
      rcases feats with _ | ⟨t, _ | ⟨hu, _ | ⟨o, _ | ⟨en, _ | ⟨cu, _ | ⟨vo,
        _ | ⟨pf2, _ | ⟨pw, _ | ⟨y, rest⟩⟩⟩⟩⟩⟩⟩⟩⟩
      case nil => simp at h
      case cons.nil => simp at h
      case cons.cons.nil => simp at h
      case cons.cons.cons.nil => simp at h
      case cons.cons.cons.cons.nil => simp at h
      case cons.cons.cons.cons.cons.nil => simp at h
      case cons.cons.cons.cons.cons.cons.nil => simp at h
      case cons.cons.cons.cons.cons.cons.cons.nil => simp at h
      case cons.cons.cons.cons.cons.cons.cons.cons.cons => simp at h
      case cons.cons.cons.cons.cons.cons.cons.cons.nil =>
        dsimp only at h
        cases han : anomalyFor t pf2 with
        | none => rw [han] at h; simp at h
        | some anom =>
          rw [han] at h
          dsimp only at h
          cases hint : pyInt o with
          | none => rw [hint] at h; simp at h
          | some occ =>
            rw [hint] at h
            dsimp only at h
            obtain rfl : pair =
                ((⟨start + 3600 * (i : ℤ), bid, pred, anom⟩ : PredRow),
                 (⟨start + 3600 * (i : ℤ), bid, t, hu, occ, en,
                   cu, vo, pf2, pw⟩ : SensorOut)) := by
              simpa using h.symm
            refine ⟨rfl, rfl, ?_⟩
            rfl

/-- C6: when the handler reaches storage, the stored prediction rows are the
forecast values aligned one-to-one with the hourly timestamp sequence
anchored at the request's start time: row i carries timestamp
start + i hours, the request's building id, and the forecast value at index
i (unwrapping one list level when the forecast's first element is itself a
list, per `specForecastAt`). -/
theorem C6_prediction_rows_alignment (forecastL : List JVal) (dynV bid : JVal)
    (start : ℤ) (n : ℕ) (pb : List PredRow) (sb : List SensorOut)
    (h : buildMainBulks (JVal.jarr forecastL) dynV bid start n = some (pb, sb)) :
    pb.length = n ∧
    ∀ i : ℕ, i < n →
      (pb[i]?).map PredRow.ts = some (start + 3600 * (i : ℤ)) ∧
      (pb[i]?).map PredRow.building_id = some bid ∧
      (pb[i]?).map PredRow.predicted_energy = specForecastAt forecastL i := by
  unfold buildMainBulks at h
  cases hm : (List.range n).mapM (bulkStep (JVal.jarr forecastL) dynV bid start) with
  | none => rw [hm] at h; simp at h
  | some pairs =>
    rw [hm] at h
    dsimp only at h
    obtain ⟨rfl, rfl⟩ : pairs.map Prod.fst = pb ∧ pairs.map Prod.snd = sb := by
      simpa using h
    obtain ⟨hlen, hidx⟩ := optionMapM_spec _ _ _ hm
    constructor
    · simp [hlen]
    · intro i hi
      obtain ⟨pair, hpair, hstep⟩ := hidx i i (List.getElem?_range hi)
      obtain ⟨hts, hbid, hpred⟩ := bulkStep_spec _ _ _ _ _ _ hstep
      have hmap : (pairs.map Prod.fst)[i]? = some pair.1 := by
        rw [List.getElem?_map, hpair]
        rfl
      refine ⟨?_, ?_, ?_⟩
      · rw [hmap]
        simp [hts]
      · rw [hmap]
        simp [hbid]
      · rw [hmap, ← predAt_jarr, hpred]
        rfl

def c6F : List JVal := [JVal.jnum 1, JVal.jnum 2]

def c6Dyn : JVal := JVal.jarr
  [JVal.jarr [JVal.jnum 25, JVal.jnum 25],
   JVal.jarr [JVal.jnum 50, JVal.jnum 50],
   JVal.jarr [JVal.jnum 0, JVal.jnum 0],
   JVal.jarr [JVal.jnum 0, JVal.jnum 0],
   JVal.jarr [JVal.jnum 5, JVal.jnum 5],
   JVal.jarr [JVal.jnum 220, JVal.jnum 220],
   JVal.jarr [JVal.jnum ((19 : ℚ) / 20), JVal.jnum ((19 : ℚ) / 20)],
   JVal.jarr [JVal.jnum 0, JVal.jnum 0]]

def c6Out : List PredRow × List SensorOut :=
  (buildMainBulks (JVal.jarr c6F) c6Dyn (JVal.jnum 0) 100 2).getD ([], [])

theorem C6_prediction_rows_alignment_witness :
    buildMainBulks (JVal.jarr c6F) c6Dyn (JVal.jnum 0) 100 2 =
      some (c6Out.1, c6Out.2) ∧
    c6Out.1.length = 2 ∧
    ((c6Out.1)[1]?).map PredRow.ts = some 3700 ∧
    ((c6Out.1)[1]?).map PredRow.predicted_energy = specForecastAt c6F 1 := by
  have hb : buildMainBulks (JVal.jarr c6F) c6Dyn (JVal.jnum 0) 100 2 =
      some (c6Out.1, c6Out.2) := by rfl
  have h := C6_prediction_rows_alignment c6F c6Dyn (JVal.jnum 0) 100 2
    c6Out.1 c6Out.2 hb
  have h1 := h.2 1 (by omega)
  refine ⟨hb, h.1, ?_, h1.2.2⟩
  rw [h1.1]
  norm_num
